import Mathlib

/-!
Verification of the JIRA feature-breakdown workflow
(`src/jira_breakdown_workflow.py`).

The workflow is a five-step event pipeline:
`start_jira_breakdown → fetch_jira_details → analyze_with_agents →
synthesize_breakdown`, with progress events both sent on the side channel
(`ctx.send_event`) and returned as step outputs.  We embed every step as a
pure Lean function; the two external collaborators that are not part of
this file's source (`RFEAgentManager.analyze_rfe` and `get_agent_personas`
from `src.agents`) become parameters: an `analyzer` function returning
`Option` (`none` models the per-persona exception swallowed by the loop)
and a `personas` association list.

Machine integers: every integer the program manipulates (progress
percentages, counters, story points) is small and non-negative or a Python
arbitrary-precision `int`, so we use `Nat`/`Int` directly.  Wall-clock
quantities (`processing_time`, `timestamp`) are threaded through as opaque
parameters of the run; no claim inspects them.
-/

/-! ### JSON values

`start_jira_breakdown` accepts its `input` either as an already-decoded
JSON object or as a string that it passes to `json.loads`.  We model JSON
values by `Json` and Python's `json.dumps` / `json.loads` (stdlib,
external to the repository) by `Json.dumpsString` / `Json.loads` below.
Objects keep their key/value pairs in order, mirroring Python dicts;
lookups are last-wins, mirroring how `json.loads` collapses duplicate
keys (later assignments overwrite earlier ones).  JSON `float` literals
and `NaN`/`Infinity` are outside the model: no value of this program's
requests is a float. -/

inductive Json where
  | null
  | bool (b : Bool)
  | num (n : Int)
  | str (s : String)
  | arr (elts : List Json)
  | obj (fields : List (String × Json))

/-- Python falsiness (`if not x:`) of a decoded JSON value. -/
def json_falsy : Json → Bool
  | .null => true
  | .bool b => !b
  | .num n => n == 0
  | .str s => s == ""
  | .arr l => l.isEmpty
  | .obj l => l.isEmpty

/-- `dict.get`-style lookup on a decoded object; last occurrence wins,
matching the dict Python's `json.loads` would build from the pairs. -/
def jlookup (fields : List (String × Json)) (key : String) : Option Json :=
  fields.foldl (fun acc kv => if kv.1 = key then some kv.2 else acc) none

/-- Decimal digit, as written by Python's `str` on an `int`. -/
def digitChar : Nat → Char
  | 0 => '0' | 1 => '1' | 2 => '2' | 3 => '3' | 4 => '4'
  | 5 => '5' | 6 => '6' | 7 => '7' | 8 => '8' | 9 => '9'
  | _ => '*'

/-- Decimal representation of a natural number, most significant digit
first (Python's `str(n)` for `n ≥ 0`). -/
def natChars (n : Nat) : List Char :=
  if n = 0 then ['0'] else ((Nat.digits 10 n).map digitChar).reverse

/-- Decimal representation of a Python `int`. -/
def intChars (n : Int) : List Char :=
  if n < 0 then '-' :: natChars n.natAbs else natChars n.toNat

/-- Lowercase hex digit, as in Python's `\uXXXX` escapes. -/
def hexDigit : Nat → Char
  | 0 => '0' | 1 => '1' | 2 => '2' | 3 => '3' | 4 => '4'
  | 5 => '5' | 6 => '6' | 7 => '7' | 8 => '8' | 9 => '9'
  | 10 => 'a' | 11 => 'b' | 12 => 'c' | 13 => 'd' | 14 => 'e' | 15 => 'f'
  | _ => '*'

/-- Four-digit hex rendering of `n < 0x10000`. -/
def hex4 (n : Nat) : List Char :=
  [hexDigit (n / 4096 % 16), hexDigit (n / 256 % 16), hexDigit (n / 16 % 16), hexDigit (n % 16)]

/-- Escape of one character inside a JSON string literal, as produced by
Python's `json.dumps` with its default `ensure_ascii=True`: printable
ASCII except `"` and `\` is literal, the usual short escapes are used,
every other BMP character becomes `\uXXXX`, and astral characters become
a UTF-16 surrogate pair. -/
def escChar (c : Char) : List Char :=
  if c = '"' then ['\\', '"']
  else if c = '\\' then ['\\', '\\']
  else if c = '\n' then ['\\', 'n']
  else if c = '\r' then ['\\', 'r']
  else if c = '\t' then ['\\', 't']
  else if c.toNat = 8 then ['\\', 'b']
  else if c.toNat = 12 then ['\\', 'f']
  else if 0x20 ≤ c.toNat ∧ c.toNat ≤ 0x7e then [c]
  else if c.toNat < 0x10000 then '\\' :: 'u' :: hex4 c.toNat
  else ('\\' :: 'u' :: hex4 (0xd800 + (c.toNat - 0x10000) / 0x400))
       ++ ('\\' :: 'u' :: hex4 (0xdc00 + (c.toNat - 0x10000) % 0x400))

def escList : List Char → List Char
  | [] => []
  | c :: cs => escChar c ++ escList cs

mutual

/-- `json.dumps` with the default separators `", "` and `": "`. -/
def Json.dumps : Json → List Char
  | .null => 'n' :: ['u', 'l', 'l']
  | .bool true => 't' :: ['r', 'u', 'e']
  | .bool false => 'f' :: ['a', 'l', 's', 'e']
  | .num n => intChars n
  | .str s => '"' :: escList s.data ++ ['"']
  | .arr [] => ['[', ']']
  | .arr (e :: es) => '[' :: (Json.dumps e ++ Json.dumpsElems es) ++ [']']
  | .obj [] => ['{', '}']
  | .obj (kv :: fs) => '{' :: (Json.dumpsMember kv ++ Json.dumpsMembers fs) ++ ['}']

/-- Remaining array elements, each preceded by the `", "` separator. -/
def Json.dumpsElems : List Json → List Char
  | [] => []
  | e :: es => ',' :: ' ' :: (Json.dumps e ++ Json.dumpsElems es)

/-- One `"key": value` member. -/
def Json.dumpsMember : String × Json → List Char
  | (k, v) => ('"' :: escList k.data ++ ['"']) ++ (':' :: ' ' :: Json.dumps v)

/-- Remaining object members, each preceded by the `", "` separator. -/
def Json.dumpsMembers : List (String × Json) → List Char
  | [] => []
  | kv :: fs => ',' :: ' ' :: (Json.dumpsMember kv ++ Json.dumpsMembers fs)

end

def Json.dumpsString (v : Json) : String := String.mk (Json.dumps v)

/-- The whitespace characters `json.loads` skips between tokens. -/
def isJsonWs (c : Char) : Bool :=
  c == ' ' || c == '\t' || c == '\n' || c == '\r'

def skipWs (cs : List Char) : List Char := cs.dropWhile isJsonWs

/-- Value of a hex digit (both cases accepted, as by `json.loads`). -/
def hexVal (c : Char) : Option Nat :=
  if c.isDigit then some (c.toNat - 48)
  else if 'a' ≤ c ∧ c ≤ 'f' then some (c.toNat - 87)
  else if 'A' ≤ c ∧ c ≤ 'F' then some (c.toNat - 55)
  else none

/-- Read exactly four hex digits, returning their value and the rest. -/
def hexQuad : List Char → Option (Nat × List Char)
  | a :: b :: c :: d :: rest =>
    match hexVal a, hexVal b, hexVal c, hexVal d with
    | some ha, some hb, some hc, some hd => some (((ha * 16 + hb) * 16 + hc) * 16 + hd, rest)
    | _, _, _, _ => none
  | _ => none

/-- Decode one backslash escape of a JSON string literal (the input
starts just after the backslash): returns the decoded character and the
number of input characters consumed.  Surrogate pairs written as two
`\u`-escapes are recombined exactly as `json.loads` does; a lone
surrogate escape is rejected (Python would keep it, but a lone surrogate
is not a Unicode scalar value, hence not a `Char`, and no output of
`Json.dumps` contains one). -/
def escDecode : List Char → Option (Char × Nat)
  | [] => none
  | e :: r2 =>
    if e = '"' then some ('"', 1)
    else if e = '\\' then some ('\\', 1)
    else if e = '/' then some ('/', 1)
    else if e = 'b' then some (Char.ofNat 8, 1)
    else if e = 'f' then some (Char.ofNat 12, 1)
    else if e = 'n' then some ('\n', 1)
    else if e = 'r' then some ('\r', 1)
    else if e = 't' then some ('\t', 1)
    else if e = 'u' then
      match hexQuad r2 with
      | some (v, r3) =>
        if v < 0xd800 ∨ 0xdfff < v then some (Char.ofNat v, 5)
        else if v ≤ 0xdbff then
          match r3 with
          | s1 :: s2 :: r4 =>
            if s1 = '\\' ∧ s2 = 'u' then
              match hexQuad r4 with
              | some (w, _) =>
                if 0xdc00 ≤ w ∧ w ≤ 0xdfff then
                  some (Char.ofNat (0x10000 + (v - 0xd800) * 0x400 + (w - 0xdc00)), 11)
                else none
              | none => none
            else none
          | _ => none
        else none
      | none => none
    else none

/-- Body of a JSON string literal, after the opening quote: returns the
decoded characters and the input following the closing quote, scanning
raw characters and escapes as the strict `json.loads` scanner does (raw
control characters are rejected). -/
def parseStringBody : List Char → Option (List Char × List Char)
  | [] => none
  | c :: rest =>
    if c = '"' then some ([], rest)
    else if c = '\\' then
      match escDecode rest with
      | some (ch, n) => (parseStringBody (rest.drop n)).map (fun p => (ch :: p.1, p.2))
      | none => none
    else if c.toNat < 0x20 then none
    else (parseStringBody rest).map (fun p => (c :: p.1, p.2))
termination_by cs => cs.length
decreasing_by
  all_goals simp only [List.length_drop, List.length_cons]
  all_goals omega

/-- Maximal run of decimal digits, interpreted as a natural number. -/
def parseNatTok (cs : List Char) : Option (Nat × List Char) :=
  let ds := cs.takeWhile Char.isDigit
  if ds.isEmpty then none
  else some (ds.foldl (fun a c => a * 10 + (c.toNat - 48)) 0, cs.dropWhile Char.isDigit)

/-- Integer token with optional leading minus.  (JSON `float` syntax is
not modeled; on such input the surrounding parse fails.) -/
def parseIntTok (cs : List Char) : Option (Int × List Char) :=
  match cs with
  | [] => none
  | c :: r =>
    if c = '-' then (parseNatTok r).map (fun p => (-(p.1 : Int), p.2))
    else (parseNatTok (c :: r)).map (fun p => ((p.1 : Int), p.2))

mutual

/-- Recursive-descent JSON value parser.  `fuel` only bounds the
recursion depth; `Json.loads` supplies more fuel than any input can
consume. -/
def parseValue : Nat → List Char → Option (Json × List Char)
  | 0, _ => none
  | fuel + 1, cs =>
    match skipWs cs with
    | [] => none
    | c :: r =>
      if c = '{' then
        match skipWs r with
        | [] => none
        | c2 :: r2 => if c2 = '}' then some (.obj [], r2) else parseMembersLoop fuel (c2 :: r2) []
      else if c = '[' then
        match skipWs r with
        | [] => none
        | c2 :: r2 => if c2 = ']' then some (.arr [], r2) else parseElemsLoop fuel (c2 :: r2) []
      else if c = '"' then
        (parseStringBody r).map (fun p => (.str (String.mk p.1), p.2))
      else if c = 't' then
        match r with
        | 'r' :: 'u' :: 'e' :: r2 => some (.bool true, r2)
        | _ => none
      else if c = 'f' then
        match r with
        | 'a' :: 'l' :: 's' :: 'e' :: r2 => some (.bool false, r2)
        | _ => none
      else if c = 'n' then
        match r with
        | 'u' :: 'l' :: 'l' :: r2 => some (.null, r2)
        | _ => none
      else
        (parseIntTok (c :: r)).map (fun p => (.num p.1, p.2))
termination_by structural fuel _ => fuel

/-- Elements of a non-empty array, starting at the first element. -/
def parseElemsLoop : Nat → List Char → List Json → Option (Json × List Char)
  | 0, _, _ => none
  | fuel + 1, cs, acc =>
    match parseValue fuel cs with
    | none => none
    | some (v, r1) =>
      match skipWs r1 with
      | [] => none
      | c :: r2 =>
        if c = ',' then parseElemsLoop fuel r2 (acc ++ [v])
        else if c = ']' then some (.arr (acc ++ [v]), r2)
        else none
termination_by structural fuel _ _ => fuel

/-- Members of a non-empty object, starting at the first key. -/
def parseMembersLoop : Nat → List Char → List (String × Json) → Option (Json × List Char)
  | 0, _, _ => none
  | fuel + 1, cs, acc =>
    match skipWs cs with
    | [] => none
    | c :: r =>
      if c = '"' then
        match parseStringBody r with
        | none => none
        | some (k, r1) =>
          match skipWs r1 with
          | [] => none
          | c2 :: r2 =>
            if c2 = ':' then
              match parseValue fuel r2 with
              | none => none
              | some (v, r3) =>
                match skipWs r3 with
                | [] => none
                | c3 :: r4 =>
                  if c3 = ',' then parseMembersLoop fuel r4 (acc ++ [(String.mk k, v)])
                  else if c3 = '}' then some (.obj (acc ++ [(String.mk k, v)]), r4)
                  else none
            else none
      else none
termination_by structural fuel _ _ => fuel

end

/-- `json.loads`: parse one value, allow trailing whitespace, reject
trailing garbage.  The fuel `length + 1` dominates the recursion depth of
any parse (each unit of fuel consumes at least one input character). -/
def Json.loads (s : String) : Option Json :=
  match parseValue (s.data.length + 1) s.data with
  | some (v, rest) => if (skipWs rest).isEmpty then some v else none
  | none => none

/-! ### Data model of the workflow (`jira_breakdown_workflow.py` lines 31–96) -/

/-- `JiraBreakdownEvent` (lines 31–43). -/
structure JiraBreakdownEvent where
  jira_id : String
  description : Option String
  user_id : Option String
  create_jira_items : Bool
deriving DecidableEq

/-- `JiraFetchProgressEvent` (lines 47–53). -/
structure JiraFetchProgressEvent where
  stage : String
  progress : Nat
  message : String
  jira_id : String
deriving DecidableEq

/-- `BreakdownProgressEvent` (lines 56–63). -/
structure BreakdownProgressEvent where
  stage : String
  progress : Nat
  message : String
  completed_agents : Nat
  total_agents : Nat
deriving DecidableEq

/-- One event of the run's observable stream, in emission order: both the
`ctx.send_event` side-channel events and the progress events a step
returns to trigger the next step travel through the deployment's event
stream. -/
inductive WorkflowEvent where
  | fetchProgress (e : JiraFetchProgressEvent)
  | breakdownProgress (e : BreakdownProgressEvent)
deriving DecidableEq

/-- The `progress` percentage carried by an event. -/
def WorkflowEvent.progress : WorkflowEvent → Nat
  | .fetchProgress e => e.progress
  | .breakdownProgress e => e.progress

/-- The dict returned by `_fetch_jira_via_mcp` (lines 283–295), as a
record: the placeholder always populates every key. -/
structure JiraDetails where
  id : String
  summary : String
  description : String
  status : String
  project : String
  issue_type : String
  priority : String
  assignee : Option String
  reporter : String
  labels : List String
  components : List String
deriving DecidableEq

/-- `JiraItem` (lines 67–78), with the pydantic field defaults. -/
structure JiraItem where
  item_type : String
  title : String
  description : String
  acceptance_criteria : List String
  story_points : Option Int := none
  priority : String := "Medium"
  components : List String := []
  labels : List String := []
  parent_epic : Option String := none
deriving DecidableEq

/-- `JiraBreakdownResponse` (lines 81–95).  `α` is the opaque type of one
persona's analysis result; `agent_analyses` keeps dict insertion order. -/
structure JiraBreakdownResponse (α : Type) where
  original_jira_id : String
  original_summary : String
  breakdown_summary : String
  epics : List JiraItem
  stories : List JiraItem
  agent_analyses : List (String × α)
  created_jira_items : Option (List String)
  processing_time : Float
  timestamp : String

/-- Python exceptions surfaced by a run, per the error taxonomy:
`validationError` is `ValueError` (including `json.JSONDecodeError`, its
subclass); `typeError` covers `AttributeError`/pydantic validation on
malformed field types; the fetch/write errors exist in the taxonomy but
the placeholder collaborators never raise them. -/
inductive WorkflowError where
  | validationError (msg : String)
  | typeError (msg : String)
  | notFoundError (msg : String)
  | upstreamError (msg : String)
deriving DecidableEq

/-! ### The pipeline steps -/

/-- `start_jira_breakdown` (lines 107–131): decode a string input with
`json.loads`, read the four request fields with `dict.get` defaults,
reject a falsy `jira_id` with `ValueError("jira_id is required")`, then
build the (pydantic-validated) `JiraBreakdownEvent`. -/
def start_jira_breakdown (input : Json) : Except WorkflowError JiraBreakdownEvent := do
  let d ← match input with
    | .str s =>
      match Json.loads s with
      | some v => pure v
      | none => throw (.validationError "Expecting value")
    | v => pure v
  let fields ← match d with
    | .obj fs => pure fs
    | _ => throw (.typeError "input_data is not an object")
  let jiraIdJ := (jlookup fields "jira_id").getD (.str "")
  if json_falsy jiraIdJ then
    throw (.validationError "jira_id is required")
  let jid ← match jiraIdJ with
    | .str s => pure s
    | _ => throw (.typeError "jira_id must be a string")
  let descr ← match jlookup fields "description" with
    | none => pure none
    | some .null => pure none
    | some (.str s) => pure (some s)
    | some _ => throw (.typeError "description must be a string")
  let uid ← match jlookup fields "user_id" with
    | none => pure none
    | some .null => pure none
    | some (.str s) => pure (some s)
    | some _ => throw (.typeError "user_id must be a string")
  let create ← match (jlookup fields "create_jira_items").getD (.bool false) with
    | .bool b => pure b
    | _ => throw (.typeError "create_jira_items must be a boolean")
  pure ⟨jid, descr, uid, create⟩

/-- The fixed dict built by `_fetch_jira_via_mcp` (lines 283–295). -/
def placeholder_jira_details (jira_id : String) : JiraDetails :=
  { id := jira_id
    summary := "Feature from " ++ jira_id
    description := "Placeholder JIRA description"
    status := "Open"
    project := "RHOAIENG"
    issue_type := "Story"
    priority := "Medium"
    assignee := none
    reporter := "system"
    labels := []
    components := [] }

/-- `_fetch_jira_via_mcp` (lines 271–295): the placeholder returns the
fixed record for every identifier and raises nothing. -/
def fetch_jira_via_mcp (jira_id : String) : Except WorkflowError JiraDetails :=
  .ok (placeholder_jira_details jira_id)

/-- `_prepare_feature_description` (lines 297–311). -/
def prepare_feature_description (jd : JiraDetails) (additional : Option String) : String :=
  let parts := ["JIRA ID: " ++ jd.id, "Summary: " ++ jd.summary,
                "Description: " ++ jd.description]
  let parts := if (additional.getD "") ≠ "" then
    parts ++ ["Additional Context: " ++ additional.getD ""] else parts
  String.intercalate "\n\n" parts

/-- Python dict assignment `agent_analyses[persona] = analysis`:
overwrite in place if the key exists, else append. -/
def dict_set {α : Type} (m : List (String × α)) (k : String) (v : α) : List (String × α) :=
  if m.any (fun kv => kv.1 = k) then m.map (fun kv => if kv.1 = k then (k, v) else kv)
  else m ++ [(k, v)]

/-- The `for persona, config in agent_personas.items()` loop of
`analyze_with_agents` (lines 198–221): on success record the analysis,
bump `completed` and emit a progress event; on failure (`analyzer`
returning `none`, modeling the caught exception) log and continue.
Python computes the percentage as `30 + int((completed / total) * 40)`
with float arithmetic; for `0 < completed ≤ total` that float truncation
coincides with the `Nat` floor division `30 + completed * 40 / total`
used here (the quotient `completed / total` is in `(0, 1]`, well inside
the range where double rounding cannot cross an integer boundary). -/
def analyze_agents_loop {α χ : Type} (analyzer : String → String → χ → Option α)
    (fd : String) (total : Nat) :
    List (String × χ) → List (String × α) → Nat → List WorkflowEvent × List (String × α) × Nat
  | [], acc, completed => ([], acc, completed)
  | (persona, config) :: rest, acc, completed =>
    match analyzer persona fd config with
    | some analysis =>
      let completed1 := completed + 1
      let ev := WorkflowEvent.breakdownProgress
        ⟨"agent_analysis", 30 + completed1 * 40 / total,
         "Completed analysis: " ++ persona, completed1, total⟩
      let r := analyze_agents_loop analyzer fd total rest (dict_set acc persona analysis) completed1
      (ev :: r.1, r.2)
    | none => analyze_agents_loop analyzer fd total rest acc completed

/-- `analyze_with_agents` (lines 164–232): initial 30% event, the
per-persona loop, then the returned `analysis_complete` event at 70%.
Returns the emitted events in order, the analysis map, and the final
`completed` counter. -/
def analyze_with_agents {α χ : Type} (analyzer : String → String → χ → Option α)
    (personas : List (String × χ)) (fd : String) :
    List WorkflowEvent × List (String × α) × Nat :=
  let total := personas.length
  let startEv := WorkflowEvent.breakdownProgress
    ⟨"agent_analysis", 30, "Starting multi-agent analysis", 0, total⟩
  let r := analyze_agents_loop analyzer fd total personas [] 0
  let doneEv := WorkflowEvent.breakdownProgress
    ⟨"analysis_complete", 70, "Multi-agent analysis completed", r.2.2, total⟩
  (startEv :: r.1 ++ [doneEv], r.2)

/-- `_synthesize_epics_and_stories` (lines 313–361): the placeholder
ignores both arguments and returns one fixed epic and two fixed stories. -/
def synthesize_epics_and_stories {α : Type} (jd : JiraDetails)
    (analyses : List (String × α)) : List JiraItem × List JiraItem :=
  let epics : List JiraItem :=
    [{ item_type := "epic"
       title := "Core Feature Implementation"
       description := "Main feature implementation based on agent analysis"
       acceptance_criteria := ["Feature works as expected", "Passes all tests"]
       components := ["backend", "frontend"]
       labels := ["feature", "ai-generated"] }]
  let stories : List JiraItem :=
    [{ item_type := "story"
       title := "Backend API Development"
       description := "Develop backend APIs for the feature"
       acceptance_criteria := ["API endpoints created", "Tests pass"]
       story_points := some 5
       components := ["backend"]
       labels := ["backend", "api"]
       parent_epic := some "Core Feature Implementation" },
     { item_type := "story"
       title := "Frontend UI Implementation"
       description := "Create frontend user interface"
       acceptance_criteria := ["UI components created", "UX requirements met"]
       story_points := some 3
       components := ["frontend"]
       labels := ["frontend", "ui"]
       parent_epic := some "Core Feature Implementation" }]
  (epics, stories)

/-- `_create_jira_items` (lines 363–384): sequential placeholder
identifiers `RHOAIENG-1000`, `RHOAIENG-1001`, …, epics first, then
stories. -/
def create_jira_items (epics stories : List JiraItem) : List String :=
  let c1 := epics.foldl (fun acc _ => acc ++ ["RHOAIENG-" ++ toString (1000 + acc.length)]) []
  stories.foldl (fun acc _ => acc ++ ["RHOAIENG-" ++ toString (1000 + acc.length)]) c1

/-- Python truthiness of `story.story_points` (`None` and `0` are both
falsy). -/
def truthy_points (s : JiraItem) : Bool :=
  match s.story_points with
  | some n => n != 0
  | none => false

/-- `sum(story.story_points for story in stories if story.story_points)`
(lines 391–393). -/
def total_story_points (stories : List JiraItem) : Int :=
  ((stories.filter truthy_points).map (fun s => s.story_points.getD 0)).sum

/-- Python `str` of a list of strings, as interpolated by the summary
f-string.  (Item strings are rendered with single quotes; none of the
placeholder component names needs escaping.) -/
def py_list_repr (xs : List String) : String :=
  "[" ++ String.intercalate ", "
    (xs.map (fun x => String.mk (Char.ofNat 39 :: (x.data ++ [Char.ofNat 39])))) ++ "]"

/-- `_generate_breakdown_summary` (lines 386–401).  Python builds the
component list from a `set`, whose iteration order is implementation
defined; we fix first-occurrence order over `epics ++ stories`. -/
def generate_breakdown_summary (epics stories : List JiraItem) : String :=
  "Feature breakdown completed:\n- " ++ toString epics.length
  ++ " epic(s) identified\n- " ++ toString stories.length
  ++ " story/stories created\n- Total estimated story points: "
  ++ toString (total_story_points stories)
  ++ "\n- Components involved: "
  ++ py_list_repr (((epics ++ stories).map JiraItem.components).flatten.eraseDups)

/-- One full run of `JiraBreakdownWorkflow`: the steps in their fixed
order, threading the context values the Python code stores in `ctx`.
Returns the stream of progress events actually emitted (none when the
start step raises) and either the terminal error or the
`JiraBreakdownResponse`.  `processing_time` and `timestamp` are the
wall-clock values measured by the run, opaque to every claim. -/
def runWorkflow {α χ : Type} (analyzer : String → String → χ → Option α)
    (personas : List (String × χ)) (input : Json) (processing_time : Float)
    (timestamp : String) :
    List WorkflowEvent × Except WorkflowError (JiraBreakdownResponse α) :=
  match start_jira_breakdown input with
  | .error e => ([], .error e)
  | .ok ev =>
    let e10 := WorkflowEvent.fetchProgress
      ⟨"fetching_jira", 10, "Fetching details for " ++ ev.jira_id, ev.jira_id⟩
    match fetch_jira_via_mcp ev.jira_id with
    | .error e => ([e10], .error e)
    | .ok jd =>
      let e25 := WorkflowEvent.fetchProgress
        ⟨"jira_fetched", 25, "Successfully fetched " ++ ev.jira_id, ev.jira_id⟩
      let fd := prepare_feature_description jd ev.description
      let ar := analyze_with_agents analyzer personas fd
      let es := synthesize_epics_and_stories jd ar.2.1
      let created := if ev.create_jira_items then some (create_jira_items es.1 es.2) else none
      let resp : JiraBreakdownResponse α :=
        { original_jira_id := ev.jira_id
          original_summary := jd.summary
          breakdown_summary := generate_breakdown_summary es.1 es.2
          epics := es.1
          stories := es.2
          agent_analyses := ar.2.1
          created_jira_items := created
          processing_time := processing_time
          timestamp := timestamp }
      (e10 :: e25 :: ar.1, .ok resp)

/-! ### Auxiliary measures for the parser proofs -/

mutual

/-- Fuel sufficient for `parseValue` to parse `Json.dumps v`. -/
def jsonFuel : Json → Nat
  | .null => 1
  | .bool _ => 1
  | .num _ => 1
  | .str _ => 1
  | .arr [] => 1
  | .arr (e :: es) => 1 + elemsFuel (e :: es)
  | .obj [] => 1
  | .obj (kv :: fs) => 1 + membersFuel (kv :: fs)

def elemsFuel : List Json → Nat
  | [] => 0
  | e :: es => 1 + jsonFuel e + elemsFuel es

def membersFuel : List (String × Json) → Nat
  | [] => 0
  | kv :: fs => 1 + jsonFuel kv.2 + membersFuel fs

end

/-- What may legally follow a serialized value inside `Json.dumps`
output: end of input, a separator comma, or a closing bracket. -/
def sepOk : List Char → Bool
  | [] => true
  | c :: _ => c == ',' || c == '}' || c == ']'

/-- `[start, start+1, …, start+len-1]` — the successive values of the
`completed` counter. -/
def countUp (first len : Nat) : List Nat :=
  match len with
  | 0 => []
  | n + 1 => first :: countUp (first + 1) n

/-- Number of personas whose analysis succeeds. -/
def successCount {α χ : Type} (analyzer : String → String → χ → Option α)
    (fd : String) (personas : List (String × χ)) : Nat :=
  (personas.filter (fun pc => (analyzer pc.1 fd pc.2).isSome)).length

/-! ### Helper lemmas -/

theorem start_jira_breakdown_only_jira_id (jid : String) (h : jid ≠ "") :
    start_jira_breakdown (Json.obj [("jira_id", Json.str jid)]) = .ok ⟨jid, none, none, false⟩ := by
  simp [start_jira_breakdown, jlookup, json_falsy, h, throw, throwThe, MonadExceptOf.throw,
    Bind.bind, Except.bind, Pure.pure, Except.pure, Functor.map, Except.map]

theorem start_jira_breakdown_missing_id (fields : List (String × Json))
    (h : jlookup fields "jira_id" = none ∨ jlookup fields "jira_id" = some (Json.str "")) :
    start_jira_breakdown (Json.obj fields) = .error (.validationError "jira_id is required") := by
  rcases h with h | h <;>
    simp [start_jira_breakdown, jlookup] at h ⊢ <;>
    simp [h, json_falsy, throw, throwThe, MonadExceptOf.throw,
      Bind.bind, Except.bind, Pure.pure, Except.pure, Functor.map, Except.map]

theorem dict_set_append {α : Type} (m : List (String × α)) (k : String) (v : α)
    (h : ∀ q ∈ m, q.1 ≠ k) : dict_set m k v = m ++ [(k, v)] := by
  have : m.any (fun kv => kv.1 = k) = false := by
    simp only [List.any_eq_false, decide_eq_true_eq]
    exact fun q hq => h q hq
  simp [dict_set, this]

/-- The loop of `analyze_with_agents`: emitted progress percentages are
`30 + c*40/total` for `c` running over the success indices, and the final
`completed` counter counts exactly the successes. -/
theorem analyze_agents_loop_spec {α χ : Type} (analyzer : String → String → χ → Option α)
    (fd : String) (total : Nat) :
    ∀ (ps : List (String × χ)) (acc : List (String × α)) (completed : Nat),
      ((analyze_agents_loop analyzer fd total ps acc completed).1.map WorkflowEvent.progress
        = (countUp (completed + 1) (successCount analyzer fd ps)).map (fun c => 30 + c * 40 / total))
      ∧ (analyze_agents_loop analyzer fd total ps acc completed).2.2
        = completed + successCount analyzer fd ps := by
  intro ps
  induction ps with
  | nil => intro acc completed; simp [analyze_agents_loop, successCount, countUp]
  | cons pc rest ih =>
    intro acc completed
    obtain ⟨p, cfg⟩ := pc
    rcases ha : analyzer p fd cfg with _ | a
    · have h1 : successCount analyzer fd ((p, cfg) :: rest) = successCount analyzer fd rest := by
        simp [successCount, List.filter_cons, ha]
      simp [analyze_agents_loop, ha, h1, ih]
    · have h1 : successCount analyzer fd ((p, cfg) :: rest) = successCount analyzer fd rest + 1 := by
        simp [successCount, List.filter_cons, ha]
      have h2 := ih (dict_set acc p a) (completed + 1)
      simp [analyze_agents_loop, ha, h1, countUp, h2, WorkflowEvent.progress]
      omega

/-- The loop of `analyze_with_agents`: when persona names are distinct,
the accumulated dict is exactly the successful personas in order. -/
theorem analyze_agents_loop_map {α χ : Type} (analyzer : String → String → χ → Option α)
    (fd : String) (total : Nat) :
    ∀ (ps : List (String × χ)) (acc : List (String × α)) (completed : Nat),
      (ps.map Prod.fst).Nodup → (∀ pc ∈ ps, ∀ q ∈ acc, q.1 ≠ pc.1) →
      (analyze_agents_loop analyzer fd total ps acc completed).2.1
        = acc ++ ps.filterMap (fun pc => (analyzer pc.1 fd pc.2).map (fun a => (pc.1, a))) := by
  intro ps
  induction ps with
  | nil => intro acc completed _ _; simp [analyze_agents_loop]
  | cons pc rest ih =>
    intro acc completed hnd hdisj
    obtain ⟨p, cfg⟩ := pc
    rw [List.map_cons] at hnd
    obtain ⟨hp, hndr⟩ := List.nodup_cons.mp hnd
    rcases ha : analyzer p fd cfg with _ | a
    · have := ih acc completed hndr (fun pc hpc q hq => hdisj pc (List.mem_cons_of_mem _ hpc) q hq)
      simp [analyze_agents_loop, ha, this]
    · have hset : dict_set acc p a = acc ++ [(p, a)] :=
        dict_set_append _ _ _ (fun q hq => hdisj (p, cfg) (List.mem_cons_self _ _) q hq)
      have hdisj2 : ∀ pc ∈ rest, ∀ q ∈ acc ++ [(p, a)], q.1 ≠ pc.1 := by
        intro pc hpc q hq
        rcases List.mem_append.mp hq with hq | hq
        · exact hdisj pc (List.mem_cons_of_mem _ hpc) q hq
        · simp at hq
          subst hq
          intro he
          exact hp (he ▸ List.mem_map_of_mem Prod.fst hpc)
      have := ih (acc ++ [(p, a)]) (completed + 1) hndr hdisj2
      simp [analyze_agents_loop, ha, this, hset]

theorem countUp_length : ∀ (len first : Nat), (countUp first len).length = len := by
  intro len
  induction len with
  | zero => intro first; simp [countUp]
  | succ n ih => intro first; simp [countUp, ih]

theorem successCount_le {α χ : Type} (analyzer : String → String → χ → Option α)
    (fd : String) (ps : List (String × χ)) : successCount analyzer fd ps ≤ ps.length :=
  List.length_filter_le _ _

theorem successCount_add_failures {α χ : Type} (analyzer : String → String → χ → Option α)
    (fd : String) : ∀ ps : List (String × χ),
    successCount analyzer fd ps
      + (ps.filter (fun pc => (analyzer pc.1 fd pc.2).isNone)).length = ps.length := by
  intro ps
  induction ps with
  | nil => simp [successCount]
  | cons pc rest ih =>
    rcases ha : analyzer pc.1 fd pc.2 with _ | a <;>
      simp [successCount, List.filter_cons, ha] at ih ⊢ <;> omega

theorem filterMap_length_successCount {α χ : Type} (analyzer : String → String → χ → Option α)
    (fd : String) : ∀ ps : List (String × χ),
    (ps.filterMap (fun pc => (analyzer pc.1 fd pc.2).map (fun a => (pc.1, a)))).length
      = successCount analyzer fd ps := by
  intro ps
  induction ps with
  | nil => simp [successCount]
  | cons pc rest ih =>
    rcases ha : analyzer pc.1 fd pc.2 with _ | a <;>
      simp [successCount, List.filter_cons, List.filterMap_cons, ha] at ih ⊢ <;> omega

theorem div40_le (N s : Nat) (h : s ≤ N) : s * 40 / N ≤ 40 := by
  rcases N with _ | n
  · interval_cases s; simp
  · calc s * 40 / (n + 1) ≤ (n + 1) * 40 / (n + 1) :=
          Nat.div_le_div_right (Nat.mul_le_mul_right _ h)
      _ = 40 := Nat.mul_div_cancel_left _ (Nat.succ_pos n)

theorem chain_countUp (N : Nat) : ∀ (len s : Nat), s + len ≤ N →
    List.Chain' (· ≤ ·)
      ((30 + s * 40 / N) :: (countUp (s + 1) len).map (fun c => 30 + c * 40 / N) ++ [70]) := by
  intro len
  induction len with
  | zero =>
    intro s hs
    simp [countUp]
    have := div40_le N s (by omega)
    omega
  | succ n ih =>
    intro s hs
    have hstep : 30 + s * 40 / N ≤ 30 + (s + 1) * 40 / N := by
      have : s * 40 / N ≤ (s + 1) * 40 / N :=
        Nat.div_le_div_right (Nat.mul_le_mul_right _ (Nat.le_succ s))
      omega
    have htail := ih (s + 1) (by omega)
    simp only [countUp, List.map_cons, List.cons_append]
    exact List.Chain'.cons hstep htail

theorem count_map_70 (N : Nat) (hN : 0 < N) : ∀ (len s : Nat), s + len ≤ N →
    ((countUp (s + 1) len).map (fun c => 30 + c * 40 / N)).count 70
      = if s + len = N ∧ 0 < len then 1 else 0 := by
  intro len
  induction len with
  | zero => intro s hs; simp [countUp]
  | succ n ih =>
    intro s hs
    have htail := ih (s + 1) (by omega)
    simp only [countUp, List.map_cons, List.count_cons, htail]
    by_cases hc : s + 1 = N
    · have hn0 : n = 0 := by omega
      subst hn0
      have h40 : (s + 1) * 40 / N = 40 := by
        rw [← hc]; exact Nat.mul_div_cancel_left _ (by omega)
      simp [countUp, h40, hc, Nat.mul_div_cancel_left _ hN]
    · have hlt : (s + 1) * 40 / N < 40 := by
        have : (s + 1) * 40 < 40 * N := by omega
        exact Nat.div_lt_of_lt_mul (by omega)
      have hne : (30 + (s + 1) * 40 / N == 70) = false := by
        simp only [beq_eq_false_iff_ne, ne_eq]
        omega
      simp only [hne, Bool.false_eq_true, if_false, Nat.add_zero]
      split_ifs <;> omega

/-- Inversion of a successful run: the start step accepted the request,
the event stream is the fetch events followed by the analysis-stage
events, and the response fields come from the synthesis step. -/
theorem runWorkflow_ok_inv {α χ : Type} (analyzer : String → String → χ → Option α)
    (personas : List (String × χ)) (input : Json) (pt : Float) (ts : String)
    (evs : List WorkflowEvent) (resp : JiraBreakdownResponse α)
    (h : runWorkflow analyzer personas input pt ts = (evs, .ok resp)) :
    ∃ ev, start_jira_breakdown input = .ok ev ∧
      (let jd := placeholder_jira_details ev.jira_id
       let ar := analyze_with_agents analyzer personas (prepare_feature_description jd ev.description)
       let es := synthesize_epics_and_stories jd ar.2.1
       evs = WorkflowEvent.fetchProgress
               ⟨"fetching_jira", 10, "Fetching details for " ++ ev.jira_id, ev.jira_id⟩
             :: WorkflowEvent.fetchProgress
               ⟨"jira_fetched", 25, "Successfully fetched " ++ ev.jira_id, ev.jira_id⟩
             :: ar.1
       ∧ resp.epics = es.1
       ∧ resp.stories = es.2
       ∧ resp.agent_analyses = ar.2.1
       ∧ resp.created_jira_items
           = (if ev.create_jira_items then some (create_jira_items es.1 es.2) else none)) := by
  rcases hs : start_jira_breakdown input with e | ev
  · simp [runWorkflow, hs] at h
  · refine ⟨ev, rfl, ?_⟩
    simp only [runWorkflow, hs, fetch_jira_via_mcp] at h
    obtain ⟨he, hr⟩ := Prod.mk.injEq .. ▸ h
    obtain rfl := Except.ok.injEq .. ▸ hr
    subst he
    exact ⟨rfl, rfl, rfl, rfl, rfl⟩

theorem create_ids_foldl : ∀ (l : List JiraItem) (acc : List String),
    l.foldl (fun acc _ => acc ++ ["RHOAIENG-" ++ toString (1000 + acc.length)]) acc
      = acc ++ (countUp acc.length l.length).map (fun i => "RHOAIENG-" ++ toString (1000 + i)) := by
  intro l
  induction l with
  | nil => intro acc; simp [countUp]
  | cons x xs ih =>
    intro acc
    rw [List.foldl_cons, ih]
    simp [countUp, List.append_assoc]

/-- `_create_jira_items` assigns the identifiers positionally: the first
`len epics` identifiers belong to the epics, the rest to the stories. -/
theorem create_jira_items_spec (epics stories : List JiraItem) :
    create_jira_items epics stories
      = (countUp 0 epics.length).map (fun i => "RHOAIENG-" ++ toString (1000 + i))
        ++ (countUp epics.length stories.length).map (fun i => "RHOAIENG-" ++ toString (1000 + i)) := by
  unfold create_jira_items
  rw [create_ids_foldl, create_ids_foldl]
  simp [countUp_length]

theorem create_jira_items_length (epics stories : List JiraItem) :
    (create_jira_items epics stories).length = epics.length + stories.length := by
  rw [create_jira_items_spec]
  simp [countUp_length]

theorem total_story_points_eq_filterMap_sum : ∀ stories : List JiraItem,
    total_story_points stories = (stories.filterMap JiraItem.story_points).sum := by
  intro stories
  induction stories with
  | nil => simp [total_story_points]
  | cons x xs ih =>
    rcases hx : x.story_points with _ | n
    · simp [total_story_points, List.filter_cons, truthy_points, hx, List.filterMap_cons] at ih ⊢
      exact ih
    · by_cases hn : n = 0
      · subst hn
        simp [total_story_points, List.filter_cons, truthy_points, hx, List.filterMap_cons] at ih ⊢
        exact ih
      · simp [total_story_points, List.filter_cons, truthy_points, hx, List.filterMap_cons, hn] at ih ⊢
        simp [hx, ih]

theorem analyze_with_agents_progress {α χ : Type} (analyzer : String → String → χ → Option α)
    (personas : List (String × χ)) (fd : String) :
    (analyze_with_agents analyzer personas fd).1.map WorkflowEvent.progress
      = 30 :: (countUp 1 (successCount analyzer fd personas)).map
          (fun c => 30 + c * 40 / personas.length) ++ [70] := by
  have h := (analyze_agents_loop_spec analyzer fd personas.length personas [] 0).1
  simp [analyze_with_agents, WorkflowEvent.progress, h]

/-! ### The claims -/

/-- C1: for every run of the persona fan-out stage with N configured
personas of which K fail, the stage swallows the failures (`analyzer`
returning `none` never aborts the fold), records no failed persona in the
result map (the map is exactly the successful personas, in order, so it
has N−K entries), attempts every persona, and the pipeline proceeds to
synthesis (a run whose start step accepts still produces a response). -/
theorem claim_C1_persona_failure_isolation {α χ : Type}
    (analyzer : String → String → χ → Option α) (personas : List (String × χ))
    (fd jid : String) (pt : Float) (ts : String)
    (hnd : (personas.map Prod.fst).Nodup) (hjid : jid ≠ "") :
    (analyze_with_agents analyzer personas fd).2.1
      = personas.filterMap (fun pc => (analyzer pc.1 fd pc.2).map (fun a => (pc.1, a)))
    ∧ (analyze_with_agents analyzer personas fd).2.1.length
      = personas.length - (personas.filter (fun pc => (analyzer pc.1 fd pc.2).isNone)).length
    ∧ (∀ p a, (p, a) ∈ (analyze_with_agents analyzer personas fd).2.1 →
        ∃ cfg, (p, cfg) ∈ personas ∧ analyzer p fd cfg = some a)
    ∧ (runWorkflow analyzer personas (Json.obj [("jira_id", Json.str jid)]) pt ts).2.isOk = true := by
  have hmap : (analyze_with_agents analyzer personas fd).2.1
      = personas.filterMap (fun pc => (analyzer pc.1 fd pc.2).map (fun a => (pc.1, a))) := by
    have := analyze_agents_loop_map analyzer fd personas.length personas [] 0 hnd (by simp)
    simpa [analyze_with_agents] using this
  refine ⟨hmap, ?_, ?_, ?_⟩
  · rw [hmap, filterMap_length_successCount]
    have := successCount_add_failures analyzer fd personas
    omega
  · intro p a hpa
    rw [hmap] at hpa
    obtain ⟨pc, hpc, hm⟩ := List.mem_filterMap.mp hpa
    rcases ha : analyzer pc.1 fd pc.2 with _ | b
    · simp [ha] at hm
    · simp [ha] at hm
      obtain ⟨rfl, rfl⟩ := hm
      exact ⟨pc.2, by simpa using hpc, ha⟩
  · rw [runWorkflow, start_jira_breakdown_only_jira_id jid hjid]
    rfl

theorem claim_C1_witness :
    ((([("a", ()), ("b", ()), ("c", ())] : List (String × Unit)).map Prod.fst).Nodup
      ∧ ("PROJ-1" : String) ≠ "")
    ∧ (analyze_with_agents (α := Unit) (fun p _ _ => if p = "b" then none else some ())
        [("a", ()), ("b", ()), ("c", ())] "fd").2.1 = [("a", ()), ("c", ())] := by
  refine ⟨⟨by decide, by decide⟩, ?_⟩
  have h := claim_C1_persona_failure_isolation (α := Unit) (χ := Unit)
    (fun p _ _ => if p = "b" then none else some ()) [("a", ()), ("b", ()), ("c", ())]
    "fd" "PROJ-1" 0 "t" (by decide) (by decide)
  rw [h.1]
  decide

/-- C2: a request whose `jira_id` is absent or the empty string is
rejected with the `ValueError` (`ValidationError`) before any pipeline
stage runs; the emitted event stream is empty. -/
theorem claim_C2_missing_jira_id_rejected {α χ : Type}
    (analyzer : String → String → χ → Option α) (personas : List (String × χ))
    (pt : Float) (ts : String) (fields : List (String × Json))
    (h : jlookup fields "jira_id" = none ∨ jlookup fields "jira_id" = some (Json.str "")) :
    runWorkflow analyzer personas (Json.obj fields) pt ts
      = ([], .error (.validationError "jira_id is required")) := by
  simp [runWorkflow, start_jira_breakdown_missing_id fields h]

theorem claim_C2_witness :
    (jlookup [("jira_id", Json.str ""), ("create_jira_items", Json.bool false)] "jira_id" = none
      ∨ jlookup [("jira_id", Json.str ""), ("create_jira_items", Json.bool false)] "jira_id"
          = some (Json.str ""))
    ∧ runWorkflow (α := Unit) (χ := Unit) (fun _ _ _ => some ()) []
        (Json.obj [("jira_id", Json.str ""), ("create_jira_items", Json.bool false)]) 0 "t"
      = ([], .error (.validationError "jira_id is required")) :=
  ⟨Or.inr rfl,
   claim_C2_missing_jira_id_rejected (fun _ _ _ => some ()) [] 0 "t"
     [("jira_id", Json.str ""), ("create_jira_items", Json.bool false)] (Or.inr rfl)⟩

/-- C3, counterexample to the claim as stated: a successful run whose
last emitted progress value is 70, not 100 — no step of the workflow ever
emits a progress value of 100. -/
theorem claim_C3_counterexample :
    ((runWorkflow (α := Unit) (χ := Unit) (fun _ _ _ => some ()) []
        (Json.obj [("jira_id", Json.str "PROJ-1")]) 0 "t").2.isOk = true)
    ∧ ((runWorkflow (α := Unit) (χ := Unit) (fun _ _ _ => some ()) []
        (Json.obj [("jira_id", Json.str "PROJ-1")]) 0 "t").1.map WorkflowEvent.progress).getLast?
      ≠ some 100 := by
  constructor
  · rfl
  · have : ((runWorkflow (α := Unit) (χ := Unit) (fun _ _ _ => some ()) []
        (Json.obj [("jira_id", Json.str "PROJ-1")]) 0 "t").1.map WorkflowEvent.progress)
      = [10, 25, 30, 70] := rfl
    rw [this]
    decide

/-- C3 as amended: for every successful run the emitted progress values
are non-decreasing in emission order, and the last emitted progress value
is 70 (the `analysis_complete` event), not 100. -/
theorem claim_C3_amended_progress_monotone_to_70 {α χ : Type}
    (analyzer : String → String → χ → Option α) (personas : List (String × χ))
    (input : Json) (pt : Float) (ts : String) (evs : List WorkflowEvent)
    (resp : JiraBreakdownResponse α)
    (h : runWorkflow analyzer personas input pt ts = (evs, .ok resp)) :
    List.Chain' (· ≤ ·) (evs.map WorkflowEvent.progress)
    ∧ (evs.map WorkflowEvent.progress).getLast? = some 70 := by
  obtain ⟨ev, _, hevs, _⟩ := runWorkflow_ok_inv analyzer personas input pt ts evs resp h
  set fd0 := prepare_feature_description (placeholder_jira_details ev.jira_id) ev.description
    with hfd
  have hS := successCount_le analyzer fd0 personas
  have hchain := chain_countUp personas.length (successCount analyzer fd0 personas) 0 (by omega)
  simp only [Nat.zero_mul, Nat.zero_div, Nat.add_zero] at hchain
  rw [hevs]
  simp only [List.map_cons, WorkflowEvent.progress]
  rw [analyze_with_agents_progress]
  constructor
  · exact List.chain'_cons.mpr ⟨by norm_num, List.chain'_cons.mpr ⟨by norm_num, hchain⟩⟩
  · rw [show (10 : Nat) :: 25 :: (30 :: (countUp 1 (successCount analyzer fd0 personas)).map
          (fun c => 30 + c * 40 / personas.length) ++ [70])
        = ((10 : Nat) :: 25 :: 30 :: (countUp 1 (successCount analyzer fd0 personas)).map
          (fun c => 30 + c * 40 / personas.length)) ++ [70] from by simp]
    exact List.getLast?_concat _

theorem claim_C3_amended_witness :
    List.Chain' (· ≤ ·) (((runWorkflow (α := Unit) (χ := Unit) (fun _ _ _ => some ()) [("a", ())]
        (Json.obj [("jira_id", Json.str "W-1")]) 0 "t").1).map WorkflowEvent.progress)
    ∧ ((((runWorkflow (α := Unit) (χ := Unit) (fun _ _ _ => some ()) [("a", ())]
        (Json.obj [("jira_id", Json.str "W-1")]) 0 "t").1).map WorkflowEvent.progress).getLast?
      = some 70) :=
  claim_C3_amended_progress_monotone_to_70 (fun _ _ _ => some ()) [("a", ())]
    (Json.obj [("jira_id", Json.str "W-1")]) 0 "t" _ _ rfl

/-- C4, counterexample to the claim as stated: with one configured
persona that succeeds, the value 70 is emitted twice during the fan-out
stage (the last per-persona progress event `30 + (1/1)*40 = 70` and the
`analysis_complete` event), not exactly once. -/
theorem claim_C4_counterexample :
    ((analyze_with_agents (α := Unit) (χ := Unit) (fun _ _ _ => some ()) [("a", ())] "fd").1.map
        WorkflowEvent.progress).count 70 = 2 := by decide

/-- C4 as amended: the fan-out stage's last emitted progress value is
always 70 (after the last persona was attempted), and 70 is emitted
exactly once when some persona fails or no persona is configured, but
exactly twice when all of N ≥ 1 personas succeed. -/
theorem claim_C4_amended_completion_progress {α χ : Type}
    (analyzer : String → String → χ → Option α) (personas : List (String × χ)) (fd : String) :
    ((analyze_with_agents analyzer personas fd).1.map WorkflowEvent.progress).getLast? = some 70
    ∧ ((analyze_with_agents analyzer personas fd).1.map WorkflowEvent.progress).count 70
        = (if successCount analyzer fd personas = personas.length ∧ 0 < personas.length
           then 2 else 1) := by
  rw [analyze_with_agents_progress]
  constructor
  · rw [show (30 : Nat) :: (countUp 1 (successCount analyzer fd personas)).map
          (fun c => 30 + c * 40 / personas.length) ++ [70]
        = ((30 : Nat) :: (countUp 1 (successCount analyzer fd personas)).map
          (fun c => 30 + c * 40 / personas.length)) ++ [70] from by simp]
    exact List.getLast?_concat _
  · rcases Nat.eq_zero_or_pos personas.length with hN | hN
    · have hS : successCount analyzer fd personas = 0 := by
        have := successCount_le analyzer fd personas
        omega
      simp [hS, hN, countUp]
    · have hcnt := count_map_70 personas.length hN (successCount analyzer fd personas) 0
        (by simpa using successCount_le analyzer fd personas)
      simp only [Nat.zero_add] at hcnt
      simp [List.count_cons, List.count_append, hcnt]
      split_ifs <;> omega

/-- C5: the synthesizer never fails and returns a non-empty epic list for
every input, the empty analysis map included, so every successful run's
response has a non-empty epic list. -/
theorem claim_C5_synthesis_nonempty {α χ : Type}
    (analyzer : String → String → χ → Option α) (personas : List (String × χ))
    (input : Json) (pt : Float) (ts : String) (evs : List WorkflowEvent)
    (resp : JiraBreakdownResponse α) (jd : JiraDetails) (analyses : List (String × α))
    (h : runWorkflow analyzer personas input pt ts = (evs, .ok resp)) :
    (synthesize_epics_and_stories jd analyses).1 ≠ [] ∧ resp.epics ≠ [] := by
  obtain ⟨ev, _, _, hep, _⟩ := runWorkflow_ok_inv analyzer personas input pt ts evs resp h
  constructor
  · simp [synthesize_epics_and_stories]
  · rw [hep]
    simp [synthesize_epics_and_stories]

theorem claim_C5_witness :
    (synthesize_epics_and_stories (α := Unit) (placeholder_jira_details "W-1")
        ([] : List (String × Unit))).1 ≠ [] :=
  (claim_C5_synthesis_nonempty (χ := Unit) (fun _ _ _ => some ()) []
    (Json.obj [("jira_id", Json.str "W-1")]) 0 "t" _ _ (placeholder_jira_details "W-1") [] rfl).1

/-- C6: in every response of a run, a story's `parent_epic`, when set,
is the title of an epic of the same response. -/
theorem claim_C6_parent_epic_integrity {α χ : Type}
    (analyzer : String → String → χ → Option α) (personas : List (String × χ))
    (input : Json) (pt : Float) (ts : String) (evs : List WorkflowEvent)
    (resp : JiraBreakdownResponse α)
    (h : runWorkflow analyzer personas input pt ts = (evs, .ok resp)) :
    ∀ st ∈ resp.stories, ∀ p, st.parent_epic = some p → ∃ e ∈ resp.epics, e.title = p := by
  obtain ⟨ev, _, _, hep, hst, _⟩ := runWorkflow_ok_inv analyzer personas input pt ts evs resp h
  rw [hep, hst]
  simp only [synthesize_epics_and_stories, List.mem_cons, List.mem_singleton]
  rintro st (rfl | rfl | h') p hp
  · exact ⟨_, Or.inl rfl, by simpa using hp⟩
  · exact ⟨_, Or.inl rfl, by simpa using hp⟩
  · simp at h'

theorem claim_C6_witness :
    ∃ e ∈ (synthesize_epics_and_stories (α := Unit) (placeholder_jira_details "W-1")
        ([] : List (String × Unit))).1, e.title = "Core Feature Implementation" := by
  have h := claim_C6_parent_epic_integrity (χ := Unit) (fun _ _ _ => some ()) []
    (Json.obj [("jira_id", Json.str "W-1")]) 0 "t" _ _ rfl
  exact h _ (List.mem_cons_self _ _) "Core Feature Implementation" rfl

/-- C7: `create_jira_items=false` leaves the response's created-items
list `None`; `create_jira_items=true` (the placeholder write stage always
succeeds) stores one identifier per input item — the list has length
`len epics + len stories` and consists of the positional identifiers for
the epics followed by those for the stories. -/
theorem claim_C7_created_items {α χ : Type}
    (analyzer : String → String → χ → Option α) (personas : List (String × χ))
    (input : Json) (pt : Float) (ts : String) (evs : List WorkflowEvent)
    (resp : JiraBreakdownResponse α) (ev : JiraBreakdownEvent)
    (h : runWorkflow analyzer personas input pt ts = (evs, .ok resp))
    (hev : start_jira_breakdown input = .ok ev) :
    (ev.create_jira_items = false → resp.created_jira_items = none)
    ∧ (ev.create_jira_items = true →
        resp.created_jira_items = some (create_jira_items resp.epics resp.stories)
        ∧ ∀ l, resp.created_jira_items = some l
            → l.length = resp.epics.length + resp.stories.length)
    ∧ (∀ epics stories : List JiraItem,
        (create_jira_items epics stories).length = epics.length + stories.length
        ∧ create_jira_items epics stories
            = (countUp 0 epics.length).map (fun i => "RHOAIENG-" ++ toString (1000 + i))
              ++ (countUp epics.length stories.length).map
                   (fun i => "RHOAIENG-" ++ toString (1000 + i))) := by
  obtain ⟨ev', hs, _, hep, hst, _, hcr⟩ := runWorkflow_ok_inv analyzer personas input pt ts evs resp h
  rw [hev] at hs
  obtain rfl : ev = ev' := (Except.ok.injEq .. ▸ hs)
  refine ⟨?_, ?_, ?_⟩
  · intro hflag
    rw [hcr, hflag]
    simp
  · intro hflag
    rw [hcr, hflag, ← hep, ← hst]
    refine ⟨by simp, ?_⟩
    intro l hl
    simp at hl
    rw [← hl, create_jira_items_length]
  · intro epics stories
    exact ⟨create_jira_items_length epics stories, create_jira_items_spec epics stories⟩

theorem claim_C7_witness :
    (runWorkflow (α := Unit) (χ := Unit) (fun _ _ _ => some ()) []
        (Json.obj [("jira_id", Json.str "W-1"), ("create_jira_items", Json.bool true)]) 0 "t").2.isOk
      = true
    ∧ (create_jira_items
        (synthesize_epics_and_stories (α := Unit) (placeholder_jira_details "W-1") []).1
        (synthesize_epics_and_stories (α := Unit) (placeholder_jira_details "W-1") []).2).length
      = 3 := by
  refine ⟨rfl, ?_⟩
  have h := claim_C7_created_items (α := Unit) (χ := Unit) (fun _ _ _ => some ()) []
    (Json.obj [("jira_id", Json.str "W-1"), ("create_jira_items", Json.bool true)]) 0 "t" _ _
    ⟨"W-1", none, none, true⟩ rfl rfl
  have h3 := (h.2.2 (synthesize_epics_and_stories (α := Unit) (placeholder_jira_details "W-1") []).1
    (synthesize_epics_and_stories (α := Unit) (placeholder_jira_details "W-1") []).2).1
  rw [h3]
  simp [synthesize_epics_and_stories]

/-- C8, counterexample to the claim as stated: the fetch operation is a
placeholder that, for an identifier that resolves to nothing (no tracker
is consulted at all), returns a fabricated record instead of failing with
`NotFoundError`. -/
theorem claim_C8_counterexample :
    fetch_jira_via_mcp "NONEXISTENT-999"
      = .ok { id := "NONEXISTENT-999", summary := "Feature from NONEXISTENT-999",
              description := "Placeholder JIRA description", status := "Open",
              project := "RHOAIENG", issue_type := "Story", priority := "Medium",
              assignee := none, reporter := "system", labels := [], components := [] } := rfl

/-- C8 as amended: the shipped `_fetch_jira_via_mcp` returns the fixed
placeholder record for every identifier and never fails with
`NotFoundError` or `UpstreamError`; the error contract of the claim
describes the intended external integration, not the shipped code. -/
theorem claim_C8_fetch_placeholder_total (jira_id : String) :
    fetch_jira_via_mcp jira_id
      = .ok { id := jira_id, summary := "Feature from " ++ jira_id,
              description := "Placeholder JIRA description", status := "Open",
              project := "RHOAIENG", issue_type := "Story", priority := "Medium",
              assignee := none, reporter := "system", labels := [], components := [] } := rfl

/-- C9: the breakdown summary's total is the sum of the story points over
the stories whose `story_points` is truthy; since a `0` estimate adds
nothing to a sum, this equals the sum over all present estimates, and a
story estimated at `0` is interchangeable with an unestimated one. -/
theorem claim_C9_story_points_truthy_sum (stories rest : List JiraItem) (s : JiraItem) :
    total_story_points stories = (stories.filterMap JiraItem.story_points).sum
    ∧ total_story_points ({ s with story_points := some 0 } :: rest)
        = total_story_points ({ s with story_points := none } :: rest) := by
  refine ⟨total_story_points_eq_filterMap_sum stories, ?_⟩
  rw [total_story_points_eq_filterMap_sum, total_story_points_eq_filterMap_sum]
  simp [List.filterMap_cons]


/-! ### Round trip of the JSON codec: string escapes -/

theorem hexVal_hexDigit (d : Nat) (h : d < 16) : hexVal (hexDigit d) = some d := by
  interval_cases d <;> decide

theorem hexVal_hexDigit_mod (a : Nat) : hexVal (hexDigit (a % 16)) = some (a % 16) :=
  hexVal_hexDigit _ (Nat.mod_lt _ (by norm_num))

theorem hexQuad_hex4 (v : Nat) (X : List Char) (h : v < 0x10000) :
    hexQuad (hex4 v ++ X) = some (v, X) := by
  simp only [hex4, List.cons_append, List.nil_append, hexQuad, hexVal_hexDigit_mod]
  have : ((v / 4096 % 16 * 16 + v / 256 % 16) * 16 + v / 16 % 16) * 16 + v % 16 = v := by omega
  simp [this]

theorem escDecode_u (r2 : List Char) :
    escDecode ('u' :: r2)
      = (match hexQuad r2 with
        | some (v, r3) =>
          if v < 0xd800 ∨ 0xdfff < v then some (Char.ofNat v, 5)
          else if v ≤ 0xdbff then
            match r3 with
            | s1 :: s2 :: r4 =>
              if s1 = '\\' ∧ s2 = 'u' then
                match hexQuad r4 with
                | some (w, _) =>
                  if 0xdc00 ≤ w ∧ w ≤ 0xdfff then
                    some (Char.ofNat (0x10000 + (v - 0xd800) * 0x400 + (w - 0xdc00)), 11)
                  else none
                | none => none
              else none
            | _ => none
          else none
        | none => none) := by
  rfl

theorem escDecode_u_bmp (t : Nat) (hval : t < 0xd800 ∨ (0xdfff < t ∧ t < 0x10000)) (X : List Char) :
    escDecode ('u' :: hex4 t ++ X) = some (Char.ofNat t, 5) := by
  have h2 : t < 0xd800 ∨ 0xdfff < t := by omega
  rw [List.cons_append, escDecode_u, hexQuad_hex4 t X (by omega)]
  simp only [if_pos h2]

theorem escDecode_u_pair (t : Nat) (h1 : 0x10000 ≤ t) (h2 : t < 0x110000) (X : List Char) :
    escDecode ('u' :: hex4 (0xd800 + (t - 0x10000) / 0x400)
        ++ '\\' :: 'u' :: hex4 (0xdc00 + (t - 0x10000) % 0x400) ++ X)
      = some (Char.ofNat t, 11) := by
  have hc1 : ¬ (0xd800 + (t - 0x10000) / 0x400 < 0xd800
      ∨ 0xdfff < 0xd800 + (t - 0x10000) / 0x400) := by omega
  have hc2 : 0xd800 + (t - 0x10000) / 0x400 ≤ 0xdbff := by omega
  have hc34 : 0xdc00 ≤ 0xdc00 + (t - 0x10000) % 0x400
      ∧ 0xdc00 + (t - 0x10000) % 0x400 ≤ 0xdfff := by omega
  have hval : 0x10000 + (0xd800 + (t - 0x10000) / 0x400 - 0xd800) * 0x400
      + (0xdc00 + (t - 0x10000) % 0x400 - 0xdc00) = t := by omega
  simp only [List.cons_append, List.append_assoc]
  rw [escDecode_u,
    hexQuad_hex4 _ ('\\' :: 'u' :: (hex4 (0xdc00 + (t - 0x10000) % 0x400) ++ X)) (by omega)]
  have hq2 := hexQuad_hex4 (0xdc00 + (t - 0x10000) % 0x400) X (by omega)
  have hc1b : ¬ 0xdfff < 0xd800 + (t - 0x10000) / 0x400 := by omega
  have hval2 : 0x10000 + (t - 0x10000) / 0x400 * 0x400 + (t - 0x10000) % 0x400 = t := by omega
  simp [hc1, hc1b, hc2, hc34, hval2, hq2]

theorem char_valid_nat (c : Char) : c.toNat < 0xd800 ∨ (0xdfff < c.toNat ∧ c.toNat < 0x110000) := by
  have h := c.valid
  unfold UInt32.isValidChar at h
  unfold Nat.isValidChar at h
  exact h

theorem psb_raw (c : Char) (xs : List Char) (h1 : ¬ c = '"') (h2 : ¬ c = '\\')
    (h3 : ¬ c.toNat < 0x20) :
    parseStringBody (c :: xs) = (parseStringBody xs).map (fun p => (c :: p.1, p.2)) := by
  simp [parseStringBody, h1, h2, h3]


theorem psb_esc (esc ch : Char) (xs : List Char)
    (hdec : ∀ ys : List Char, escDecode (esc :: ys) = some (ch, 1)) :
    parseStringBody ('\\' :: esc :: xs) = (parseStringBody xs).map (fun p => (ch :: p.1, p.2)) := by
  simp [parseStringBody, hdec]

theorem psb_backslash (xs : List Char) :
    parseStringBody ('\\' :: xs)
      = match escDecode xs with
        | some (ch, n) => (parseStringBody (xs.drop n)).map (fun p => (ch :: p.1, p.2))
        | none => none := by
  simp [parseStringBody]
  try rfl

theorem parseStringBody_escList : ∀ (cs rest : List Char),
    parseStringBody (escList cs ++ '"' :: rest) = some (cs, rest) := by
  intro cs
  induction cs with
  | nil => intro rest; simp [escList, parseStringBody]
  | cons c cs ih =>
    intro rest
    rw [show escList (c :: cs) = escChar c ++ escList cs from rfl, List.append_assoc]
    by_cases h1 : c = '"'
    · subst h1
      rw [show escChar '"' = ['\\', '"'] from rfl, List.cons_append, List.cons_append,
        List.nil_append, psb_esc '"' '"' _ (fun ys => by simp [escDecode]), ih]
      rfl
    · by_cases h2 : c = '\\'
      · subst h2
        rw [show escChar '\\' = ['\\', '\\'] from rfl, List.cons_append, List.cons_append,
          List.nil_append, psb_esc '\\' '\\' _ (fun ys => by simp [escDecode]), ih]
        rfl
      · by_cases h3 : c = '\n'
        · subst h3
          rw [show escChar '\n' = ['\\', 'n'] from rfl, List.cons_append, List.cons_append,
            List.nil_append, psb_esc 'n' '\n' _ (fun ys => by simp [escDecode]), ih]
          rfl
        · by_cases h4 : c = '\r'
          · subst h4
            rw [show escChar '\r' = ['\\', 'r'] from rfl, List.cons_append, List.cons_append,
              List.nil_append, psb_esc 'r' '\r' _ (fun ys => by simp [escDecode]), ih]
            rfl
          · by_cases h5 : c = '\t'
            · subst h5
              rw [show escChar '\t' = ['\\', 't'] from rfl, List.cons_append, List.cons_append,
                List.nil_append, psb_esc 't' '\t' _ (fun ys => by simp [escDecode]), ih]
              rfl
            · by_cases h6 : c.toNat = 8
              · have hc : Char.ofNat 8 = c := by rw [← h6]; exact Char.ofNat_toNat c
                have hesc : escChar c = ['\\', 'b'] := by
                  rw [escChar, if_neg h1, if_neg h2, if_neg h3, if_neg h4, if_neg h5, if_pos h6]
                rw [hesc, List.cons_append, List.cons_append, List.nil_append,
                  psb_esc 'b' (Char.ofNat 8) _ (fun ys => by simp [escDecode]), ih, hc]
                rfl
              · by_cases h7 : c.toNat = 12
                · have hc : Char.ofNat 12 = c := by rw [← h7]; exact Char.ofNat_toNat c
                  have hesc : escChar c = ['\\', 'f'] := by
                    rw [escChar, if_neg h1, if_neg h2, if_neg h3, if_neg h4, if_neg h5,
                      if_neg h6, if_pos h7]
                  rw [hesc, List.cons_append, List.cons_append, List.nil_append,
                    psb_esc 'f' (Char.ofNat 12) _ (fun ys => by simp [escDecode]), ih, hc]
                  rfl
                · by_cases h8 : 0x20 ≤ c.toNat ∧ c.toNat ≤ 0x7e
                  · have hesc : escChar c = [c] := by
                      rw [escChar, if_neg h1, if_neg h2, if_neg h3, if_neg h4, if_neg h5,
                        if_neg h6, if_neg h7, if_pos h8]
                    rw [hesc, List.cons_append, List.nil_append,
                      psb_raw c _ h1 h2 (by omega), ih]
                    rfl
                  · by_cases h9 : c.toNat < 0x10000
                    · have hval : c.toNat < 0xd800 ∨ (0xdfff < c.toNat ∧ c.toNat < 0x10000) := by
                        rcases char_valid_nat c with h | h
                        · exact Or.inl h
                        · exact Or.inr ⟨h.1, h9⟩
                      have hesc : escChar c = '\\' :: 'u' :: hex4 c.toNat := by
                        rw [escChar, if_neg h1, if_neg h2, if_neg h3, if_neg h4, if_neg h5,
                          if_neg h6, if_neg h7, if_neg h8, if_pos h9]
                      have hdec := escDecode_u_bmp c.toNat hval (escList cs ++ '"' :: rest)
                      have hdrop : (('u' :: hex4 c.toNat) ++ (escList cs ++ '"' :: rest)).drop 5
                          = escList cs ++ '"' :: rest := by simp [hex4]
                      rw [hesc]
                      simp only [List.cons_append, List.append_assoc] at hdec hdrop ⊢
                      rw [psb_backslash, hdec]
                      simp only [hdrop, ih, Char.ofNat_toNat]
                      rfl
                    · have hup : 0xdfff < c.toNat ∧ c.toNat < 0x110000 := by
                        rcases char_valid_nat c with h | h
                        · omega
                        · exact h
                      have hesc : escChar c
                          = ('\\' :: 'u' :: hex4 (0xd800 + (c.toNat - 0x10000) / 0x400))
                            ++ ('\\' :: 'u' :: hex4 (0xdc00 + (c.toNat - 0x10000) % 0x400)) := by
                        rw [escChar, if_neg h1, if_neg h2, if_neg h3, if_neg h4, if_neg h5,
                          if_neg h6, if_neg h7, if_neg h8, if_neg h9]
                      have hdec := escDecode_u_pair c.toNat (by omega) hup.2
                        (escList cs ++ '"' :: rest)
                      have hdrop : (('u' :: hex4 (0xd800 + (c.toNat - 0x10000) / 0x400)
                            ++ '\\' :: 'u' :: hex4 (0xdc00 + (c.toNat - 0x10000) % 0x400))
                            ++ (escList cs ++ '"' :: rest)).drop 11
                          = escList cs ++ '"' :: rest := by simp [hex4]
                      rw [hesc]
                      simp only [List.cons_append, List.append_assoc] at hdec hdrop ⊢
                      rw [psb_backslash, hdec]
                      simp only [hdrop, ih, Char.ofNat_toNat]
                      rfl


/-! ### Round trip of the JSON codec: number tokens -/

theorem digitChar_isDigit (d : Nat) (h : d < 10) : (digitChar d).isDigit = true := by
  interval_cases d <;> decide

theorem digitChar_toNat (d : Nat) (h : d < 10) : (digitChar d).toNat = 48 + d := by
  interval_cases d <;> decide

theorem natChars_all_digits (n : Nat) : ∀ c ∈ natChars n, c.isDigit = true := by
  intro c hc
  unfold natChars at hc
  split at hc
  · simp at hc; subst hc; decide
  · simp at hc
    obtain ⟨d, hd, rfl⟩ := hc
    exact digitChar_isDigit d (Nat.digits_lt_base (by norm_num) hd)

theorem natChars_ne_nil (n : Nat) : natChars n ≠ [] := by
  unfold natChars
  split
  · simp
  · simp only [ne_eq, List.reverse_eq_nil_iff, List.map_eq_nil_iff]
    intro h
    exact absurd h (Nat.digits_ne_nil_iff_ne_zero.mpr (by assumption))

theorem takeWhile_all_append (p : Char → Bool) : ∀ (l1 l2 : List Char),
    (∀ c ∈ l1, p c = true) → (∀ c, l2.head? = some c → p c = false) →
    (l1 ++ l2).takeWhile p = l1 ∧ (l1 ++ l2).dropWhile p = l2 := by
  intro l1
  induction l1 with
  | nil =>
    intro l2 _ h2
    rcases l2 with _ | ⟨c, l⟩
    · simp
    · have := h2 c rfl
      simp [List.takeWhile, List.dropWhile, this]
  | cons x l1 ih =>
    intro l2 h1 h2
    have hx := h1 x (by simp)
    have := ih l2 (fun c hc => h1 c (by simp [hc])) h2
    simp [List.takeWhile_cons, List.dropWhile_cons, hx, this.1, this.2]

theorem foldl_horner : ∀ (L : List Nat) (acc : Nat),
    L.foldl (fun a d => a * 10 + d) acc = acc * 10 ^ L.length + Nat.ofDigits 10 L.reverse := by
  intro L
  induction L with
  | nil => intro acc; simp
  | cons d L ih =>
    intro acc
    rw [List.foldl_cons, ih]
    simp [Nat.ofDigits_append, Nat.ofDigits_singleton, pow_succ]
    ring

theorem foldl_digit_vals : ∀ (L : List Nat), (∀ d ∈ L, d < 10) → ∀ acc : Nat,
    L.foldl (fun a d => a * 10 + ((digitChar d).toNat - 48)) acc
      = L.foldl (fun a d => a * 10 + d) acc := by
  intro L
  induction L with
  | nil => intro _ acc; rfl
  | cons d L ih =>
    intro h acc
    rw [List.foldl_cons, List.foldl_cons, digitChar_toNat d (h d (by simp)),
      ih (fun x hx => h x (by simp [hx]))]
    congr 1
    omega

theorem natChars_foldl (n : Nat) :
    (natChars n).foldl (fun a c => a * 10 + (c.toNat - 48)) 0 = n := by
  unfold natChars
  split
  · next h => subst h; decide
  · rw [← List.map_reverse, List.foldl_map, foldl_digit_vals _
      (fun d hd => Nat.digits_lt_base (by norm_num) (List.mem_reverse.mp hd)),
      foldl_horner]
    simp [Nat.ofDigits_digits]

theorem sepOk_head_not_digit (rest : List Char) (h : sepOk rest = true) :
    ∀ c, rest.head? = some c → c.isDigit = false := by
  intro c hc
  rcases rest with _ | ⟨x, l⟩
  · simp at hc
  · simp at hc
    subst hc
    simp [sepOk] at h
    rcases h with (h | h) | h <;> (subst h; decide)

theorem parseNatTok_natChars (n : Nat) (rest : List Char) (h : sepOk rest = true) :
    parseNatTok (natChars n ++ rest) = some (n, rest) := by
  obtain ⟨htake, hdrop⟩ := takeWhile_all_append Char.isDigit (natChars n) rest
    (natChars_all_digits n) (sepOk_head_not_digit rest h)
  unfold parseNatTok
  rw [htake, hdrop]
  simp [List.isEmpty_iff, natChars_ne_nil n, natChars_foldl n]

theorem natChars_head_digit (n : Nat) (c : Char) (t : List Char) (h : natChars n = c :: t) :
    c.isDigit = true :=
  natChars_all_digits n c (by rw [h]; simp)

theorem parseIntTok_cons (c : Char) (r : List Char) :
    parseIntTok (c :: r)
      = if c = '-' then (parseNatTok r).map (fun p => (-(p.1 : Int), p.2))
        else (parseNatTok (c :: r)).map (fun p => ((p.1 : Int), p.2)) := rfl

theorem parseIntTok_intChars (n : Int) (rest : List Char) (h : sepOk rest = true) :
    parseIntTok (intChars n ++ rest) = some (n, rest) := by
  unfold intChars
  split
  · next hn =>
    rw [List.cons_append, parseIntTok_cons, if_pos rfl, parseNatTok_natChars _ rest h]
    show some (-((n.natAbs : Int)), rest) = some (n, rest)
    rw [show -((n.natAbs : Int)) = n by omega]
  · next hn =>
    rcases hnc : natChars n.toNat with _ | ⟨c, t⟩
    · exact absurd hnc (natChars_ne_nil _)
    · have hcd := natChars_head_digit _ _ _ hnc
      have hcm : ¬ c = '-' := by
        intro he
        subst he
        simp [Char.isDigit] at hcd
      rw [List.cons_append, parseIntTok_cons, if_neg hcm, ← List.cons_append, ← hnc,
        parseNatTok_natChars _ rest h]
      show some (((n.toNat : Int)), rest) = some (n, rest)
      rw [show ((n.toNat : Int)) = n by omega]

/-! ### The `json.dumps`/`json.loads` round trip (claim C10)

`start_jira_breakdown` feeds a string input through `json.loads`; the
claim compares that path on `json.dumps(d)` with the direct path on `d`.
The lemmas below establish `Json.loads (Json.dumpsString v) = some v` by
a fuel induction over the recursive-descent parser. -/

theorem skipWs_cons_not (c : Char) (X : List Char) (h : isJsonWs c = false) :
    skipWs (c :: X) = c :: X := by
  simp [skipWs, List.dropWhile_cons, h]

theorem skipWs_ws_append : ∀ (pre X : List Char), (∀ c ∈ pre, isJsonWs c = true) →
    skipWs (pre ++ X) = skipWs X := by
  intro pre
  induction pre with
  | nil => intro X _; rfl
  | cons c l ih =>
    intro X h
    simp only [List.cons_append, skipWs, List.dropWhile_cons, h c (by simp)]
    exact ih X (fun x hx => h x (by simp [hx]))

theorem digit_head_ne (c : Char) (h : c.isDigit = true ∨ c = '-') (x : Char)
    (hx : x.isDigit = false) (hx2 : ¬ x = '-') : ¬ c = x := by
  rintro rfl
  rcases h with h | h
  · rw [h] at hx
    cases hx
  · exact hx2 h

theorem digit_not_ws (c : Char) (h : c.isDigit = true ∨ c = '-') : isJsonWs c = false := by
  have h1 := digit_head_ne c h ' ' (by decide) (by decide)
  have h2 := digit_head_ne c h '\t' (by decide) (by decide)
  have h3 := digit_head_ne c h '\n' (by decide) (by decide)
  have h4 := digit_head_ne c h '\r' (by decide) (by decide)
  simp [isJsonWs, h1, h2, h3, h4]

theorem intChars_cons : ∀ n : Int, ∃ c t, intChars n = c :: t ∧ (c.isDigit = true ∨ c = '-') := by
  intro n
  unfold intChars
  split
  · exact ⟨'-', natChars n.natAbs, rfl, Or.inr rfl⟩
  · rcases hnc : natChars n.toNat with _ | ⟨c, t⟩
    · exact absurd hnc (natChars_ne_nil _)
    · exact ⟨c, t, rfl, Or.inl (natChars_head_digit _ _ _ hnc)⟩

theorem dumps_cons : ∀ v : Json, ∃ c t, Json.dumps v = c :: t
    ∧ isJsonWs c = false ∧ ¬ c = ']' ∧ ¬ c = '}' ∧ ¬ c = ',' := by
  intro v
  cases v with
  | null => exact ⟨'n', _, rfl, by decide, by decide, by decide, by decide⟩
  | bool b => cases b with
    | true => exact ⟨'t', _, rfl, by decide, by decide, by decide, by decide⟩
    | false => exact ⟨'f', _, rfl, by decide, by decide, by decide, by decide⟩
  | num n =>
    obtain ⟨c, t, hct, hd⟩ := intChars_cons n
    exact ⟨c, t, hct, digit_not_ws c hd, digit_head_ne c hd _ (by decide) (by decide),
      digit_head_ne c hd _ (by decide) (by decide), digit_head_ne c hd _ (by decide) (by decide)⟩
  | str s => exact ⟨'"', _, rfl, by decide, by decide, by decide, by decide⟩
  | arr es => cases es with
    | nil => exact ⟨'[', _, rfl, by decide, by decide, by decide, by decide⟩
    | cons e es => exact ⟨'[', _, rfl, by decide, by decide, by decide, by decide⟩
  | obj fs => cases fs with
    | nil => exact ⟨'{', _, rfl, by decide, by decide, by decide, by decide⟩
    | cons kv fs => exact ⟨'{', _, rfl, by decide, by decide, by decide, by decide⟩

theorem pv_null (fuel : Nat) (X : List Char) :
    parseValue (fuel + 1) ('n' :: 'u' :: 'l' :: 'l' :: X) = some (.null, X) := by
  simp [parseValue, skipWs_cons_not, isJsonWs]

theorem pv_true (fuel : Nat) (X : List Char) :
    parseValue (fuel + 1) ('t' :: 'r' :: 'u' :: 'e' :: X) = some (.bool true, X) := by
  simp [parseValue, skipWs_cons_not, isJsonWs]

theorem pv_false (fuel : Nat) (X : List Char) :
    parseValue (fuel + 1) ('f' :: 'a' :: 'l' :: 's' :: 'e' :: X) = some (.bool false, X) := by
  simp [parseValue, skipWs_cons_not, isJsonWs]

theorem pv_str (fuel : Nat) (X : List Char) :
    parseValue (fuel + 1) ('"' :: X)
      = (parseStringBody X).map (fun p => (Json.str (String.mk p.1), p.2)) := by
  simp [parseValue, skipWs_cons_not, isJsonWs]

theorem pv_digit (fuel : Nat) (c : Char) (X : List Char) (h : c.isDigit = true ∨ c = '-') :
    parseValue (fuel + 1) (c :: X)
      = (parseIntTok (c :: X)).map (fun p => (Json.num p.1, p.2)) := by
  have hws := digit_not_ws c h
  have h1 := digit_head_ne c h '{' (by decide) (by decide)
  have h2 := digit_head_ne c h '[' (by decide) (by decide)
  have h3 := digit_head_ne c h '"' (by decide) (by decide)
  have h4 := digit_head_ne c h 't' (by decide) (by decide)
  have h5 := digit_head_ne c h 'f' (by decide) (by decide)
  have h6 := digit_head_ne c h 'n' (by decide) (by decide)
  rw [show parseValue (fuel + 1) (c :: X)
      = match skipWs (c :: X) with
        | [] => none
        | c :: r =>
          if c = '{' then
            match skipWs r with
            | [] => none
            | c2 :: r2 => if c2 = '}' then some (.obj [], r2) else parseMembersLoop fuel (c2 :: r2) []
          else if c = '[' then
            match skipWs r with
            | [] => none
            | c2 :: r2 => if c2 = ']' then some (.arr [], r2) else parseElemsLoop fuel (c2 :: r2) []
          else if c = '"' then
            (parseStringBody r).map (fun p => (Json.str (String.mk p.1), p.2))
          else if c = 't' then
            match r with
            | 'r' :: 'u' :: 'e' :: r2 => some (.bool true, r2)
            | _ => none
          else if c = 'f' then
            match r with
            | 'a' :: 'l' :: 's' :: 'e' :: r2 => some (.bool false, r2)
            | _ => none
          else if c = 'n' then
            match r with
            | 'u' :: 'l' :: 'l' :: r2 => some (.null, r2)
            | _ => none
          else
            (parseIntTok (c :: r)).map (fun p => (.num p.1, p.2)) from rfl]
  rw [skipWs_cons_not c X hws]
  simp only [if_neg h1, if_neg h2, if_neg h3, if_neg h4, if_neg h5, if_neg h6]

theorem pv_brace (fuel : Nat) (X : List Char) :
    parseValue (fuel + 1) ('{' :: X)
      = (match skipWs X with
        | [] => none
        | c2 :: r2 => if c2 = '}' then some (.obj [], r2) else parseMembersLoop fuel (c2 :: r2) []) := by
  simp [parseValue, skipWs_cons_not, isJsonWs]
  try rfl

theorem pv_bracket (fuel : Nat) (X : List Char) :
    parseValue (fuel + 1) ('[' :: X)
      = (match skipWs X with
        | [] => none
        | c2 :: r2 => if c2 = ']' then some (.arr [], r2) else parseElemsLoop fuel (c2 :: r2) []) := by
  simp [parseValue, skipWs_cons_not, isJsonWs]
  try rfl

theorem pv_skip_space (fuel : Nat) (X : List Char) :
    parseValue (fuel + 1) (' ' :: X) = parseValue (fuel + 1) X := by
  rw [show parseValue (fuel + 1) (' ' :: X)
      = match skipWs (' ' :: X) with
        | [] => none
        | c :: r =>
          if c = '{' then
            match skipWs r with
            | [] => none
            | c2 :: r2 => if c2 = '}' then some (.obj [], r2) else parseMembersLoop fuel (c2 :: r2) []
          else if c = '[' then
            match skipWs r with
            | [] => none
            | c2 :: r2 => if c2 = ']' then some (.arr [], r2) else parseElemsLoop fuel (c2 :: r2) []
          else if c = '"' then
            (parseStringBody r).map (fun p => (Json.str (String.mk p.1), p.2))
          else if c = 't' then
            match r with
            | 'r' :: 'u' :: 'e' :: r2 => some (.bool true, r2)
            | _ => none
          else if c = 'f' then
            match r with
            | 'a' :: 'l' :: 's' :: 'e' :: r2 => some (.bool false, r2)
            | _ => none
          else if c = 'n' then
            match r with
            | 'u' :: 'l' :: 'l' :: r2 => some (.null, r2)
            | _ => none
          else
            (parseIntTok (c :: r)).map (fun p => (.num p.1, p.2)) from rfl]
  rw [show skipWs (' ' :: X) = skipWs X from by simp [skipWs, List.dropWhile_cons, isJsonWs]]
  rw [show (match skipWs X with
        | [] => none
        | c :: r =>
          if c = '{' then
            match skipWs r with
            | [] => none
            | c2 :: r2 => if c2 = '}' then some (.obj [], r2) else parseMembersLoop fuel (c2 :: r2) []
          else if c = '[' then
            match skipWs r with
            | [] => none
            | c2 :: r2 => if c2 = ']' then some (.arr [], r2) else parseElemsLoop fuel (c2 :: r2) []
          else if c = '"' then
            (parseStringBody r).map (fun p => (Json.str (String.mk p.1), p.2))
          else if c = 't' then
            match r with
            | 'r' :: 'u' :: 'e' :: r2 => some (.bool true, r2)
            | _ => none
          else if c = 'f' then
            match r with
            | 'a' :: 'l' :: 's' :: 'e' :: r2 => some (.bool false, r2)
            | _ => none
          else if c = 'n' then
            match r with
            | 'u' :: 'l' :: 'l' :: r2 => some (.null, r2)
            | _ => none
          else
            (parseIntTok (c :: r)).map (fun p => (.num p.1, p.2)))
      = parseValue (fuel + 1) X from by
    rw [show parseValue (fuel + 1) X
        = match skipWs X with
          | [] => none
          | c :: r =>
            if c = '{' then
              match skipWs r with
              | [] => none
              | c2 :: r2 => if c2 = '}' then some (.obj [], r2) else parseMembersLoop fuel (c2 :: r2) []
            else if c = '[' then
              match skipWs r with
              | [] => none
              | c2 :: r2 => if c2 = ']' then some (.arr [], r2) else parseElemsLoop fuel (c2 :: r2) []
            else if c = '"' then
              (parseStringBody r).map (fun p => (Json.str (String.mk p.1), p.2))
            else if c = 't' then
              match r with
              | 'r' :: 'u' :: 'e' :: r2 => some (.bool true, r2)
              | _ => none
            else if c = 'f' then
              match r with
              | 'a' :: 'l' :: 's' :: 'e' :: r2 => some (.bool false, r2)
              | _ => none
            else if c = 'n' then
              match r with
              | 'u' :: 'l' :: 'l' :: r2 => some (.null, r2)
              | _ => none
            else
              (parseIntTok (c :: r)).map (fun p => (.num p.1, p.2)) from rfl]]

theorem pel_cons (fuel : Nat) (cs : List Char) (acc : List Json) :
    parseElemsLoop (fuel + 1) cs acc
      = match parseValue fuel cs with
        | none => none
        | some (v, r1) =>
          match skipWs r1 with
          | [] => none
          | c :: r2 =>
            if c = ',' then parseElemsLoop fuel r2 (acc ++ [v])
            else if c = ']' then some (.arr (acc ++ [v]), r2)
            else none := rfl

theorem pml_cons (fuel : Nat) (cs : List Char) (acc : List (String × Json)) :
    parseMembersLoop (fuel + 1) cs acc
      = match skipWs cs with
        | [] => none
        | c :: r =>
          if c = '"' then
            match parseStringBody r with
            | none => none
            | some (k, r1) =>
              match skipWs r1 with
              | [] => none
              | c2 :: r2 =>
                if c2 = ':' then
                  match parseValue fuel r2 with
                  | none => none
                  | some (v, r3) =>
                    match skipWs r3 with
                    | [] => none
                    | c3 :: r4 =>
                      if c3 = ',' then parseMembersLoop fuel r4 (acc ++ [(String.mk k, v)])
                      else if c3 = '}' then some (.obj (acc ++ [(String.mk k, v)]), r4)
                      else none
                else none
          else none := rfl

theorem jsonFuel_pos : ∀ v : Json, 1 ≤ jsonFuel v := by
  intro v
  cases v with
  | null => simp [jsonFuel]
  | bool b => simp [jsonFuel]
  | num n => simp [jsonFuel]
  | str s => simp [jsonFuel]
  | arr es => cases es <;> simp [jsonFuel]
  | obj fs => cases fs <;> simp [jsonFuel]

theorem sepOk_dumpsElems (es : List Json) (rest : List Char) :
    sepOk (Json.dumpsElems es ++ ']' :: rest) = true := by
  cases es <;> simp [Json.dumpsElems, sepOk]

theorem sepOk_dumpsMembers (fs : List (String × Json)) (rest : List Char) :
    sepOk (Json.dumpsMembers fs ++ '}' :: rest) = true := by
  cases fs <;> simp [Json.dumpsMembers, sepOk]

theorem pv_congr (fuel : Nat) (cs1 cs2 : List Char) (h : skipWs cs1 = skipWs cs2) :
    parseValue (fuel + 1) cs1 = parseValue (fuel + 1) cs2 := by
  rw [show parseValue (fuel + 1) cs1
      = match skipWs cs1 with
        | [] => none
        | c :: r =>
          if c = '{' then
            match skipWs r with
            | [] => none
            | c2 :: r2 => if c2 = '}' then some (.obj [], r2) else parseMembersLoop fuel (c2 :: r2) []
          else if c = '[' then
            match skipWs r with
            | [] => none
            | c2 :: r2 => if c2 = ']' then some (.arr [], r2) else parseElemsLoop fuel (c2 :: r2) []
          else if c = '"' then
            (parseStringBody r).map (fun p => (Json.str (String.mk p.1), p.2))
          else if c = 't' then
            match r with
            | 'r' :: 'u' :: 'e' :: r2 => some (.bool true, r2)
            | _ => none
          else if c = 'f' then
            match r with
            | 'a' :: 'l' :: 's' :: 'e' :: r2 => some (.bool false, r2)
            | _ => none
          else if c = 'n' then
            match r with
            | 'u' :: 'l' :: 'l' :: r2 => some (.null, r2)
            | _ => none
          else
            (parseIntTok (c :: r)).map (fun p => (.num p.1, p.2)) from rfl]
  rw [h]
  rw [show (match skipWs cs2 with
        | [] => none
        | c :: r =>
          if c = '{' then
            match skipWs r with
            | [] => none
            | c2 :: r2 => if c2 = '}' then some (.obj [], r2) else parseMembersLoop fuel (c2 :: r2) []
          else if c = '[' then
            match skipWs r with
            | [] => none
            | c2 :: r2 => if c2 = ']' then some (.arr [], r2) else parseElemsLoop fuel (c2 :: r2) []
          else if c = '"' then
            (parseStringBody r).map (fun p => (Json.str (String.mk p.1), p.2))
          else if c = 't' then
            match r with
            | 'r' :: 'u' :: 'e' :: r2 => some (.bool true, r2)
            | _ => none
          else if c = 'f' then
            match r with
            | 'a' :: 'l' :: 's' :: 'e' :: r2 => some (.bool false, r2)
            | _ => none
          else if c = 'n' then
            match r with
            | 'u' :: 'l' :: 'l' :: r2 => some (.null, r2)
            | _ => none
          else
            (parseIntTok (c :: r)).map (fun p => (.num p.1, p.2)))
      = parseValue (fuel + 1) cs2 from rfl]

theorem pel_done (fuel : Nat) (cs rest : List Char) (acc : List Json) (v : Json)
    (h : parseValue fuel cs = some (v, ']' :: rest)) :
    parseElemsLoop (fuel + 1) cs acc = some (.arr (acc ++ [v]), rest) := by
  rw [pel_cons, h]
  simp [skipWs_cons_not, isJsonWs]

theorem pel_comma (fuel : Nat) (cs r2 : List Char) (acc : List Json) (v : Json)
    (h : parseValue fuel cs = some (v, ',' :: r2)) :
    parseElemsLoop (fuel + 1) cs acc = parseElemsLoop fuel r2 (acc ++ [v]) := by
  rw [pel_cons, h]
  simp [skipWs_cons_not, isJsonWs]

theorem pml_entry_done (fuel : Nat) (pre k X rest : List Char) (acc : List (String × Json))
    (v : Json) (hpre : ∀ c ∈ pre, isJsonWs c = true)
    (hv : parseValue fuel (' ' :: X) = some (v, '}' :: rest)) :
    parseMembersLoop (fuel + 1) (pre ++ ('"' :: (escList k ++ ('"' :: (':' :: (' ' :: X)))))) acc
      = some (.obj (acc ++ [(String.mk k, v)]), rest) := by
  rw [pml_cons, skipWs_ws_append pre _ hpre, skipWs_cons_not '"' _ (by decide)]
  simp [parseStringBody_escList, hv, skipWs_cons_not, isJsonWs]

theorem pml_entry_comma (fuel : Nat) (pre k X r4 : List Char) (acc : List (String × Json))
    (v : Json) (hpre : ∀ c ∈ pre, isJsonWs c = true)
    (hv : parseValue fuel (' ' :: X) = some (v, ',' :: r4)) :
    parseMembersLoop (fuel + 1) (pre ++ ('"' :: (escList k ++ ('"' :: (':' :: (' ' :: X)))))) acc
      = parseMembersLoop fuel r4 (acc ++ [(String.mk k, v)]) := by
  rw [pml_cons, skipWs_ws_append pre _ hpre, skipWs_cons_not '"' _ (by decide)]
  simp [parseStringBody_escList, hv, skipWs_cons_not, isJsonWs]

theorem parse_dumps_all : ∀ fuel : Nat,
    (∀ (v : Json) (rest pre : List Char), (∀ c ∈ pre, isJsonWs c = true) →
      jsonFuel v ≤ fuel → sepOk rest = true →
      parseValue fuel (pre ++ (Json.dumps v ++ rest)) = some (v, rest))
    ∧ (∀ (e : Json) (es : List Json) (acc : List Json) (rest pre : List Char),
        (∀ c ∈ pre, isJsonWs c = true) → elemsFuel (e :: es) ≤ fuel → sepOk rest = true →
        parseElemsLoop fuel (pre ++ (Json.dumps e ++ (Json.dumpsElems es ++ (']' :: rest)))) acc
          = some (.arr (acc ++ e :: es), rest))
    ∧ (∀ (k : String) (v : Json) (fs : List (String × Json)) (acc : List (String × Json))
          (rest pre : List Char),
        (∀ c ∈ pre, isJsonWs c = true) → membersFuel ((k, v) :: fs) ≤ fuel → sepOk rest = true →
        parseMembersLoop fuel
            (pre ++ ('"' :: (escList k.data ++ ('"' :: (':' :: (' ' :: (Json.dumps v
              ++ (Json.dumpsMembers fs ++ ('}' :: rest))))))))) acc
          = some (.obj (acc ++ (k, v) :: fs), rest)) := by
  intro fuel
  induction fuel with
  | zero =>
    refine ⟨?_, ?_, ?_⟩
    · intro v rest pre _ hf _
      exact absurd hf (by have := jsonFuel_pos v; omega)
    · intro e es acc rest pre _ hf _
      refine absurd hf ?_
      simp only [elemsFuel]
      omega
    · intro k v fs acc rest pre _ hf _
      refine absurd hf ?_
      simp only [membersFuel]
      omega
  | succ fuel ih =>
    obtain ⟨ihv, ihe, ihm⟩ := ih
    refine ⟨?_, ?_, ?_⟩
    · -- parseValue round trip
      intro v rest pre hpre hf hsep
      rw [pv_congr fuel (pre ++ (Json.dumps v ++ rest)) (Json.dumps v ++ rest)
        (skipWs_ws_append pre _ hpre)]
      cases v with
      | null => rw [show Json.dumps .null ++ rest = 'n' :: 'u' :: 'l' :: 'l' :: rest from rfl,
          pv_null]
      | bool b =>
        cases b with
        | true => rw [show Json.dumps (.bool true) ++ rest
              = 't' :: 'r' :: 'u' :: 'e' :: rest from rfl, pv_true]
        | false => rw [show Json.dumps (.bool false) ++ rest
              = 'f' :: 'a' :: 'l' :: 's' :: 'e' :: rest from rfl, pv_false]
      | num n =>
        obtain ⟨c, t, hct, hd⟩ := intChars_cons n
        rw [show Json.dumps (.num n) = intChars n from rfl, hct, List.cons_append,
          pv_digit fuel c _ hd, ← List.cons_append, ← hct, parseIntTok_intChars n rest hsep]
        rfl
      | str s =>
        rw [show Json.dumps (.str s) ++ rest
            = '"' :: (escList s.data ++ '"' :: rest) from by simp [Json.dumps],
          pv_str, parseStringBody_escList]
        rfl
      | arr es =>
        cases es with
        | nil =>
          rw [show Json.dumps (.arr []) ++ rest = '[' :: ']' :: rest from rfl, pv_bracket,
            skipWs_cons_not ']' rest (by decide)]
          simp
        | cons e es =>
          have hfe : elemsFuel (e :: es) ≤ fuel := by
            simp only [jsonFuel] at hf
            omega
          rw [show Json.dumps (.arr (e :: es)) ++ rest
              = '[' :: (Json.dumps e ++ (Json.dumpsElems es ++ (']' :: rest))) from by
                simp [Json.dumps], pv_bracket]
          have he := ihe e es [] rest [] (by simp) hfe hsep
          simp only [List.nil_append] at he
          obtain ⟨c, t, hct, hws, hbr, _, _⟩ := dumps_cons e
          rw [show Json.dumps e ++ (Json.dumpsElems es ++ (']' :: rest))
              = c :: (t ++ (Json.dumpsElems es ++ (']' :: rest))) from by rw [hct]; rfl] at he ⊢
          rw [skipWs_cons_not c _ hws]
          simp [he, hbr]
      | obj fs =>
        cases fs with
        | nil =>
          rw [show Json.dumps (.obj []) ++ rest = '{' :: '}' :: rest from rfl, pv_brace,
            skipWs_cons_not '}' rest (by decide)]
          simp
        | cons kv fs =>
          obtain ⟨k, v⟩ := kv
          have hfm : membersFuel ((k, v) :: fs) ≤ fuel := by
            simp only [jsonFuel] at hf
            omega
          rw [show Json.dumps (.obj ((k, v) :: fs)) ++ rest
              = '{' :: (Json.dumpsMember (k, v) ++ (Json.dumpsMembers fs ++ ('}' :: rest))) from by
                simp [Json.dumpsMember, Json.dumps], pv_brace]
          have hm := ihm k v fs [] rest [] (by simp) hfm hsep
          simp only [List.nil_append] at hm
          have hshape : Json.dumpsMember (k, v) ++ (Json.dumpsMembers fs ++ ('}' :: rest))
              = '"' :: (escList k.data ++ ('"' :: (':' :: (' ' :: (Json.dumps v
                ++ (Json.dumpsMembers fs ++ ('}' :: rest))))))) := by
            simp [Json.dumpsMember]
          rw [hshape, skipWs_cons_not '"' _ (by decide)]
          simp [hm]
    · -- elements loop
      intro e es acc rest pre hpre hf hsep
      have hfe : jsonFuel e ≤ fuel := by
        simp only [elemsFuel] at hf
        omega
      have hv := ihv e (Json.dumpsElems es ++ (']' :: rest)) pre hpre hfe (sepOk_dumpsElems es rest)
      cases es with
      | nil =>
        rw [show Json.dumpsElems [] ++ (']' :: rest) = ']' :: rest from rfl] at hv ⊢
        rw [pel_done fuel _ rest acc e hv]
      | cons e2 es2 =>
        have hfe2 : elemsFuel (e2 :: es2) ≤ fuel := by
          simp only [elemsFuel] at hf ⊢
          omega
        rw [show Json.dumpsElems (e2 :: es2) ++ (']' :: rest)
            = ',' :: (' ' :: (Json.dumps e2 ++ (Json.dumpsElems es2 ++ (']' :: rest)))) from by
              simp [Json.dumpsElems]] at hv ⊢
        rw [pel_comma fuel _ _ acc e hv]
        have hrec := ihe e2 es2 (acc ++ [e]) rest [' '] (by decide) hfe2 hsep
        rw [show (' ' :: (Json.dumps e2 ++ (Json.dumpsElems es2 ++ (']' :: rest))))
            = [' '] ++ (Json.dumps e2 ++ (Json.dumpsElems es2 ++ (']' :: rest))) from rfl, hrec]
        simp
    · -- members loop
      intro k v fs acc rest pre hpre hf hsep
      have hfv : jsonFuel v ≤ fuel := by
        simp only [membersFuel] at hf
        omega
      have hv := ihv v (Json.dumpsMembers fs ++ ('}' :: rest)) [' '] (by decide) hfv
        (sepOk_dumpsMembers fs rest)
      rw [show [' '] ++ (Json.dumps v ++ (Json.dumpsMembers fs ++ ('}' :: rest)))
          = ' ' :: (Json.dumps v ++ (Json.dumpsMembers fs ++ ('}' :: rest))) from rfl] at hv
      cases fs with
      | nil =>
        rw [show Json.dumpsMembers ([] : List (String × Json)) ++ ('}' :: rest)
            = '}' :: rest from rfl] at hv ⊢
        rw [pml_entry_done fuel pre k.data _ rest acc v hpre hv,
          show String.mk k.data = k from rfl]
      | cons kv2 fs2 =>
        obtain ⟨k2, v2⟩ := kv2
        have hfm2 : membersFuel ((k2, v2) :: fs2) ≤ fuel := by
          simp only [membersFuel] at hf ⊢
          omega
        rw [show Json.dumpsMembers ((k2, v2) :: fs2) ++ ('}' :: rest)
            = ',' :: (' ' :: (Json.dumpsMember (k2, v2)
              ++ (Json.dumpsMembers fs2 ++ ('}' :: rest)))) from by
              simp [Json.dumpsMembers]] at hv ⊢
        rw [pml_entry_comma fuel pre k.data _ _ acc v hpre hv,
          show String.mk k.data = k from rfl]
        have hrec := ihm k2 v2 fs2 (acc ++ [(k, v)]) rest [' '] (by decide) hfm2 hsep
        rw [show Json.dumpsMember (k2, v2) ++ (Json.dumpsMembers fs2 ++ ('}' :: rest))
            = '"' :: (escList k2.data ++ ('"' :: (':' :: (' ' :: (Json.dumps v2
              ++ (Json.dumpsMembers fs2 ++ ('}' :: rest))))))) from by
              simp [Json.dumpsMember]]
        rw [show (' ' :: ('"' :: (escList k2.data ++ ('"' :: (':' :: (' ' :: (Json.dumps v2
              ++ (Json.dumpsMembers fs2 ++ ('}' :: rest)))))))))
            = [' '] ++ ('"' :: (escList k2.data ++ ('"' :: (':' :: (' ' :: (Json.dumps v2
              ++ (Json.dumpsMembers fs2 ++ ('}' :: rest)))))))) from rfl, hrec]
        simp

theorem fuel_le_dumps : ∀ N : Nat,
    (∀ v : Json, jsonFuel v ≤ N → jsonFuel v ≤ (Json.dumps v).length)
    ∧ (∀ es : List Json, elemsFuel es ≤ N → elemsFuel es ≤ (Json.dumpsElems es).length)
    ∧ (∀ fs : List (String × Json),
        membersFuel fs ≤ N → membersFuel fs ≤ (Json.dumpsMembers fs).length) := by
  intro N
  induction N with
  | zero =>
    refine ⟨?_, ?_, ?_⟩
    · intro v hv
      exact absurd hv (by have := jsonFuel_pos v; omega)
    · intro es hes
      cases es with
      | nil => simp [elemsFuel]
      | cons e es =>
        refine absurd hes ?_
        simp only [elemsFuel]
        omega
    · intro fs hfs
      cases fs with
      | nil => simp [membersFuel]
      | cons kv fs =>
        refine absurd hfs ?_
        simp only [membersFuel]
        omega
  | succ N ih =>
    obtain ⟨ihv, ihe, ihm⟩ := ih
    refine ⟨?_, ?_, ?_⟩
    · intro v hv
      cases v with
      | null => simp [jsonFuel, Json.dumps]
      | bool b => cases b <;> simp [jsonFuel, Json.dumps]
      | num n =>
        obtain ⟨c, t, hct, _⟩ := intChars_cons n
        simp [jsonFuel, Json.dumps, hct]
      | str s => simp [jsonFuel, Json.dumps]
      | arr es =>
        cases es with
        | nil => simp [jsonFuel, Json.dumps]
        | cons e es =>
          simp only [jsonFuel, elemsFuel] at hv ⊢
          have h1 := ihv e (by omega)
          have h2 := ihe es (by omega)
          simp only [Json.dumps, List.length_append, List.length_cons]
          omega
      | obj fs =>
        cases fs with
        | nil => simp [jsonFuel, Json.dumps]
        | cons kv fs =>
          obtain ⟨k, v⟩ := kv
          simp only [jsonFuel, membersFuel] at hv ⊢
          have h1 := ihv v (by omega)
          have h2 := ihm fs (by omega)
          simp only [Json.dumps, Json.dumpsMember, List.length_append, List.length_cons]
          omega
    · intro es hes
      cases es with
      | nil => simp [elemsFuel]
      | cons e es =>
        simp only [elemsFuel] at hes ⊢
        have h1 := ihv e (by omega)
        have h2 := ihe es (by omega)
        simp only [Json.dumpsElems, List.length_append, List.length_cons]
        omega
    · intro fs hfs
      cases fs with
      | nil => simp [membersFuel]
      | cons kv fs =>
        obtain ⟨k, v⟩ := kv
        simp only [membersFuel] at hfs ⊢
        have h1 := ihv v (by omega)
        have h2 := ihm fs (by omega)
        simp only [Json.dumpsMembers, Json.dumpsMember, List.length_append, List.length_cons]
        omega

theorem parse_dumps (v : Json) (fuel : Nat) (h : jsonFuel v ≤ fuel) :
    parseValue fuel (Json.dumps v) = some (v, []) := by
  cases fuel with
  | zero => exact absurd h (by have := jsonFuel_pos v; omega)
  | succ f =>
    have hp := (parse_dumps_all (f + 1)).1 v [] [] (by simp) h (by rfl)
    simpa using hp

theorem loads_dumps (v : Json) : Json.loads (Json.dumpsString v) = some v := by
  have hfb := (fuel_le_dumps (jsonFuel v)).1 v le_rfl
  have hp := parse_dumps v ((Json.dumps v).length + 1) (by omega)
  simp [Json.loads, Json.dumpsString, hp, skipWs]

/-- C10: the start step accepts the request input either as a JSON object
or as a JSON-encoded string: for every request object `d` (a field list),
processing the string form `json.dumps(d)` through `start_jira_breakdown`
yields exactly the same outcome (the same `JiraBreakdownEvent`, or the
same error) as processing `d` directly. -/
theorem claim_C10_string_input_equiv (fields : List (String × Json)) :
    start_jira_breakdown (Json.str (Json.dumpsString (Json.obj fields)))
      = start_jira_breakdown (Json.obj fields) := by
  simp [start_jira_breakdown, loads_dumps, Bind.bind, Except.bind, Pure.pure, Except.pure]
